import Mathlib

/-!
Verification of the duty-roster / rotation scheduler of `src/main.py`
(the `/sessione` feature: `SESSIONS`, `sessione_start`,
`sessione_close_join_phase`, `sessione_join_leave_callback`,
`sessione_next_turn`).

The embedding is a shallow one:

* a Python session dict `{"chat_id", "message_id", "priests", "in_turn",
  "waiting", "phase"}` becomes the structure `Session`;
* the global dict `SESSIONS` becomes an association list keyed by
  `message_id` inside `World`;
* the `job_queue` timers become two sets of pending timer keys in `World`
  (`join_timers` for the one-shot `run_once` enrollment job, `turn_timers`
  for the `run_repeating` rotation job); a timer callback can only fire
  while its key is pending, `run_once` jobs are consumed by firing and
  `run_repeating` jobs stay pending until `schedule_removal`;
* every outward bot call (message edits, deletions, job scheduling) is
  recorded as an `Eff` value in the step output;
* `random.shuffle` and `set.pop` are modelled by adversarial parameters:
  each timer event carries a candidate ordering `order : List Nat` (used
  when it is a permutation of the current `priests`, with a deterministic
  fallback otherwise, so the functions stay total), and a leave event
  carries a candidate `pick : Nat` for the arbitrary `waiting.pop()`.
-/

namespace Roster

/-- `session["phase"]`: the Python code stores the strings `"join"` and
`"running"`. -/
inductive Phase where
  | join
  | running
deriving DecidableEq, Repr

/-- One entry of the `SESSIONS` dict of `src/main.py`. -/
structure Session where
  chat_id : Nat
  message_id : Nat
  priests : Finset Nat
  in_turn : Finset Nat
  waiting : Finset Nat
  phase : Phase

/-- Field-wise equality decision (the auto-derived one transports data
along `Finset` equalities, which blocks kernel evaluation). -/
instance : DecidableEq Session := fun a b =>
  decidable_of_iff
    (a.chat_id = b.chat_id ∧ a.message_id = b.message_id ∧
      a.priests = b.priests ∧ a.in_turn = b.in_turn ∧
      a.waiting = b.waiting ∧ a.phase = b.phase)
    (by cases a; cases b; simp)

/-- Constructor-wise equality decision for looked-up sessions (again the
auto-derived instance blocks kernel evaluation). -/
instance : DecidableEq (Option Session) := fun a b =>
  match a, b with
  | none, none => isTrue rfl
  | some x, some y => decidable_of_iff (x = y) (by simp)
  | none, some _ => isFalse (by simp)
  | some _, none => isFalse (by simp)

/-- The four callback-data strings of the inline keyboards. -/
inductive Btn where
  | sess_join
  | sess_leave
  | turn_join
  | turn_leave
deriving DecidableEq, Repr

/-- Outward-visible effects: bot calls and job-queue calls made by the
handlers. -/
inductive Eff where
  /-- `update.message.reply_text` for "Una sessione sacerdotale è già attiva". -/
  | replyAlreadyActive
  /-- `query.answer("Questa sessione non è più attiva", show_alert=True)`. -/
  | answerNotActive
  /-- edit of the anchor message with the enrollment-phase roster text. -/
  | editJoinRender (msg : Nat)
  /-- edit of the anchor message with the running-phase roster text
  (`update_session_message`). -/
  | editRunRender (msg : Nat)
  /-- edit with "La sessione non può iniziare … numero minimo di 3". -/
  | editQuorumNotReached (msg : Nat)
  /-- edit with "La sessione è terminata: non ci sono più almeno 3 sacerdoti". -/
  | editQuorumLost (msg : Nat)
  /-- `bot.delete_message` on the anchor message (best effort). -/
  | deleteAnchor (msg : Nat)
  /-- `job_queue.run_once(sessione_close_join_phase, when=...)`. -/
  | scheduleOnce (msg whenSec : Nat)
  /-- `job_queue.run_repeating(sessione_next_turn, interval=..., first=...)`. -/
  | scheduleRepeating (msg first interval : Nat)
  /-- `context.job.schedule_removal()`. -/
  | cancelRepeating (msg : Nat)
deriving DecidableEq, Repr

/-- Whole-system state: the `SESSIONS` registry plus the pending jobs. -/
structure World where
  sessions : List (Nat × Session)
  join_timers : Finset Nat
  turn_timers : Finset Nat

/-- Field-wise equality decision, see `Session`'s instance. -/
instance : DecidableEq World := fun a b =>
  decidable_of_iff
    (a.sessions = b.sessions ∧ a.join_timers = b.join_timers ∧
      a.turn_timers = b.turn_timers)
    (by cases a; cases b; simp)

/-- `SESSIONS.get(message_id)`. -/
def regGet (reg : List (Nat × Session)) (m : Nat) : Option Session :=
  (reg.find? (fun p => p.1 == m)).map Prod.snd

/-- `del SESSIONS[message_id]` (total version; the code only deletes keys
it has just looked up). -/
def regRemove (reg : List (Nat × Session)) (m : Nat) : List (Nat × Session) :=
  reg.filter (fun p => p.1 != m)

/-- `SESSIONS[message_id] = session` / in-place mutation of the dict entry. -/
def regSet (reg : List (Nat × Session)) (m : Nat) (s : Session) :
    List (Nat × Session) :=
  (m, s) :: regRemove reg m

/-- `when=120` of the `run_once` call in `sessione_start`. -/
def JOIN_WINDOW : Nat := 120

/-- `interval=30 * 60` (and `first=30 * 60`) of the `run_repeating` call in
`sessione_close_join_phase`. -/
def TURN_INTERVAL : Nat := 30 * 60

/-- `random.shuffle(list(priests))`, modelled adversarially: the event
carries a candidate ordering, used when it really is an ordering of the
set; any invalid candidate falls back to a fixed enumeration so that the
function is total. -/
def permOf (order : List Nat) (s : Finset Nat) : List Nat :=
  if order.Nodup ∧ order.toFinset = s then order else s.sort (· ≤ ·)

/-- `waiting.pop()`: removes and returns an arbitrary element; the event
carries a candidate element, used when it is really a member. -/
def popFrom (pick : Nat) (s : Finset Nat) : Nat :=
  if pick ∈ s then pick else (s.sort (· ≤ ·)).headI

/-- `sessione_start` (src/main.py:567), after the access-control guards
(`is_priest`, staff-chat check), which the spec delegates to an external
collaborator.  `any(SESSIONS.values())` is truth-testing of the stored
session dicts, which are never empty, hence it is registry non-emptiness. -/
def sessione_start (w : World) (chat msg : Nat) : World × List Eff :=
  if ¬ w.sessions.isEmpty then
    (w, [Eff.replyAlreadyActive])
  else
    ({ sessions := regSet w.sessions msg
        { chat_id := chat, message_id := msg, priests := ∅, in_turn := ∅,
          waiting := ∅, phase := Phase.join },
       join_timers := insert msg w.join_timers,
       turn_timers := w.turn_timers },
     [Eff.scheduleOnce msg JOIN_WINDOW])

/-- The selection block of `sessione_close_join_phase` (src/main.py:647):
`random.shuffle(priests_list)`, `in_turn = set(priests_list[:2])`,
`waiting = set(priests_list[2:])`, `phase = "running"`. -/
def closeSelect (order : List Nat) (s : Session) : Session :=
  let ps := permOf order s.priests
  { s with in_turn := (ps.take 2).toFinset,
           waiting := (ps.drop 2).toFinset,
           phase := Phase.running }

/-- `sessione_close_join_phase` (src/main.py:622). -/
def sessione_close_join_phase (w : World) (msg : Nat) (order : List Nat) :
    World × List Eff :=
  match regGet w.sessions msg with
  | none => (w, [])
  | some s =>
    if s.priests.card < 3 then
      ({ w with sessions := regRemove w.sessions msg },
       [Eff.editQuorumNotReached msg])
    else
      ({ w with sessions := regSet w.sessions msg (closeSelect order s),
                turn_timers := insert msg w.turn_timers },
       [Eff.editRunRender msg,
        Eff.scheduleRepeating msg TURN_INTERVAL TURN_INTERVAL])

/-- The `sess_join`/`sess_leave` block of `sessione_join_leave_callback`
(src/main.py:722): it runs before the phase test, hence in either phase. -/
def sessMut (uid : Nat) (b : Btn) (s : Session) : Session :=
  match b with
  | Btn.sess_join => { s with priests := insert uid s.priests }
  | Btn.sess_leave => { s with priests := s.priests.erase uid }
  | _ => s

/-- The `turn_join`/`turn_leave` block of the running-phase branch of
`sessione_join_leave_callback` (src/main.py:757). -/
def turnMut (uid pick : Nat) (b : Btn) (s : Session) : Session :=
  match b with
  | Btn.turn_join =>
    let s := { s with priests := insert uid s.priests }
    if uid ∉ s.in_turn then
      { s with waiting := insert uid s.waiting,
               priests := insert uid s.priests }
    else s
  | Btn.turn_leave =>
    -- The two discards of the Python on-duty branch touch `in_turn` and
    -- `priests` only, so the later `if session["waiting"]` test and
    -- `waiting.pop()` read the unmutated `waiting`; the branch is written
    -- here directly in terms of the incoming fields.
    let s1 : Session :=
      if uid ∈ s.in_turn then
        if s.waiting.Nonempty then
          { s with in_turn := insert (popFrom pick s.waiting)
                     (s.in_turn.erase uid),
                   priests := s.priests.erase uid,
                   waiting := s.waiting.erase (popFrom pick s.waiting) }
        else
          { s with in_turn := s.in_turn.erase uid,
                   priests := s.priests.erase uid }
      else s
    if uid ∈ s1.waiting then
      { s1 with waiting := s1.waiting.erase uid,
                priests := s1.priests.erase uid }
    else s1
  | _ => s

/-- `sessione_join_leave_callback` (src/main.py:708).  The
`sess_join`/`sess_leave` block (`sessMut`) runs before the phase test, so
those two buttons mutate `priests` in either phase. -/
def sessione_join_leave_callback (w : World) (msg uid pick : Nat) (b : Btn) :
    World × List Eff :=
  match regGet w.sessions msg with
  | none => (w, [Eff.answerNotActive])
  | some s =>
    let s := sessMut uid b s
    if s.phase = Phase.join then
      ({ w with sessions := regSet w.sessions msg s }, [Eff.editJoinRender msg])
    else
      let s := turnMut uid pick b s
      if s.priests.card < 3 then
        ({ w with sessions := regRemove w.sessions msg },
         [Eff.editQuorumLost msg])
      else
        ({ w with sessions := regSet w.sessions msg s },
         [Eff.editRunRender msg])

/-- The selection block of `sessione_next_turn` (src/main.py:817):
shuffle, exclude `prev_in_turn` unless that leaves fewer than two
candidates, take the first two, recompute `waiting`. -/
def rotateSelect (order : List Nat) (s : Session) : Session :=
  let ps := permOf order s.priests
  let candidates0 := ps.filter (fun p => !decide (p ∈ s.in_turn))
  let candidates := if candidates0.length < 2 then ps else candidates0
  { s with in_turn := (candidates.take 2).toFinset,
           waiting := s.priests \ (candidates.take 2).toFinset }

/-- `sessione_next_turn` (src/main.py:788). -/
def sessione_next_turn (w : World) (msg : Nat) (order : List Nat) :
    World × List Eff :=
  match regGet w.sessions msg with
  | none =>
    ({ w with turn_timers := w.turn_timers.erase msg },
     [Eff.cancelRepeating msg])
  | some s =>
    if s.priests.card < 3 then
      ({ w with sessions := regRemove w.sessions msg,
                turn_timers := w.turn_timers.erase msg },
       [Eff.editQuorumLost msg, Eff.deleteAnchor msg, Eff.cancelRepeating msg])
    else
      ({ w with sessions := regSet w.sessions msg (rotateSelect order s) },
       [Eff.editRunRender msg])

/-- External triggers.  `order` and `pick` are the adversarial stand-ins
for `random.shuffle` and `set.pop` (see `permOf`, `popFrom`). -/
inductive Ev where
  | start (chat msg : Nat)
  | button (msg uid pick : Nat) (b : Btn)
  | closeJoin (msg : Nat) (order : List Nat)
  | nextTurn (msg : Nat) (order : List Nat)
deriving DecidableEq, Repr

/-- One scheduler step: dispatch an external trigger.  A timer callback
fires only while its job is pending; the one-shot enrollment job is
consumed by firing, the repeating rotation job stays pending unless the
callback calls `schedule_removal` (modelled inside `sessione_next_turn`). -/
def step (w : World) (e : Ev) : World × List Eff :=
  match e with
  | Ev.start chat msg => sessione_start w chat msg
  | Ev.button msg uid pick b => sessione_join_leave_callback w msg uid pick b
  | Ev.closeJoin msg order =>
    if msg ∈ w.join_timers then
      sessione_close_join_phase
        { w with join_timers := w.join_timers.erase msg } msg order
    else (w, [])
  | Ev.nextTurn msg order =>
    if msg ∈ w.turn_timers then sessione_next_turn w msg order
    else (w, [])

/-- Process start: empty registry, no pending jobs. -/
def initWorld : World := { sessions := [], join_timers := ∅, turn_timers := ∅ }

/-- Replay a list of triggers, discarding the effects. -/
def runTrace (w : World) (es : List Ev) : World :=
  es.foldl (fun w e => (step w e).1) w

/-- States reachable from process start by any sequence of triggers. -/
inductive Reach : World → Prop where
  | init : Reach initWorld
  | next (w : World) (e : Ev) : Reach w → Reach (step w e).1

/-- The session keyed `msg`, if any, is still in its enrollment phase.
Used to single out "phase-appropriate" deliveries of the enrollment-phase
buttons. -/
def phaseOkAt (w : World) (msg : Nat) : Bool :=
  match regGet w.sessions msg with
  | some s => s.phase == Phase.join
  | none => true

/-- An event is phase-appropriate when it is not an enrollment-phase
button (`sess_join`/`sess_leave`) delivered to a running session. -/
def goodEv (w : World) (e : Ev) : Bool :=
  match e with
  | Ev.button msg _ _ Btn.sess_join => phaseOkAt w msg
  | Ev.button msg _ _ Btn.sess_leave => phaseOkAt w msg
  | _ => true

/-- Every event of the trace is phase-appropriate at its point of
delivery. -/
def goodTrace (w : World) : List Ev → Bool
  | [] => true
  | e :: es => goodEv w e && goodTrace (step w e).1 es

/-- States reachable by phase-appropriate triggers only. -/
inductive GoodReach : World → Prop where
  | init : GoodReach initWorld
  | next (w : World) (e : Ev) : GoodReach w → goodEv w e = true →
      GoodReach (step w e).1

/-- The running-phase membership invariant of the spec's data model. -/
def RunInv (s : Session) : Prop :=
  s.priests = s.in_turn ∪ s.waiting ∧ Disjoint s.in_turn s.waiting ∧
  s.in_turn.card = 2 ∧ 3 ≤ s.priests.card

/-- Every running session of the registry satisfies `RunInv`. -/
def WorldInv (w : World) : Prop :=
  ∀ m s, regGet w.sessions m = some s → s.phase = Phase.running → RunInv s

/-- Key `m` is fully retired: no session, no pending enrollment job, no
pending rotation job. -/
def Dead (w : World) (m : Nat) : Prop :=
  regGet w.sessions m = none ∧ m ∉ w.join_timers ∧ m ∉ w.turn_timers

/-- The event is a session-start request anchored at `m`. -/
def isStartAt (m : Nat) : Ev → Prop
  | Ev.start _ msg => msg = m
  | _ => False

instance (m : Nat) : (e : Ev) → Decidable (isStartAt m e)
  | Ev.start _ msg => decidable_of_iff (msg = m) Iff.rfl
  | Ev.button _ _ _ _ => isFalse (fun h => h)
  | Ev.closeJoin _ _ => isFalse (fun h => h)
  | Ev.nextTurn _ _ => isFalse (fun h => h)

/-- Encoding of an enrollment-phase join (`true`) or leave (`false`)
request by the given operator, as the corresponding button event. -/
def jlEv (msg : Nat) (x : Bool × Nat) : Ev :=
  Ev.button msg x.2 0 (if x.1 then Btn.sess_join else Btn.sess_leave)

/-- The kind (`true` = join, `false` = leave) of the last event of the
sequence that touches operator `u`, if any.  Spec side of the claim "the
set of operators whose last event was a join and who have not since
left". -/
def lastEvent (u : Nat) : List (Bool × Nat) → Option Bool
  | [] => none
  | x :: t =>
    match lastEvent u t with
    | some b => some b
    | none => if x.2 = u then some x.1 else none

/- ------------------------------------------------------------------ -/
/- Helper lemmas: registry, permutation model, pop model.             -/
/- ------------------------------------------------------------------ -/

theorem regGet_cons (a : Nat × Session) (r : List (Nat × Session))
    (m : Nat) :
    regGet (a :: r) m = if a.1 = m then some a.2 else regGet r m := by
  by_cases h : a.1 = m
  · simp [regGet, List.find?, h]
  · have hb : (a.1 == m) = false := by simp [h]
    simp [regGet, List.find?, hb, h]

theorem regRemove_cons (a : Nat × Session) (r : List (Nat × Session))
    (m : Nat) :
    regRemove (a :: r) m =
      if a.1 = m then regRemove r m else a :: regRemove r m := by
  by_cases h : a.1 = m <;> simp [regRemove, h]

theorem regGet_regRemove_self (r : List (Nat × Session)) (m : Nat) :
    regGet (regRemove r m) m = none := by
  induction r with
  | nil => rfl
  | cons a t ih =>
    rw [regRemove_cons]
    by_cases h : a.1 = m
    · simpa [h] using ih
    · rw [if_neg h, regGet_cons, if_neg h]
      exact ih

theorem regGet_regRemove_ne (r : List (Nat × Session)) (m m' : Nat)
    (h : m' ≠ m) : regGet (regRemove r m) m' = regGet r m' := by
  induction r with
  | nil => rfl
  | cons a t ih =>
    rw [regRemove_cons, regGet_cons]
    by_cases h1 : a.1 = m
    · have h2 : a.1 ≠ m' := by omega
      rw [if_pos h1, if_neg h2]
      exact ih
    · rw [if_neg h1, regGet_cons]
      by_cases h2 : a.1 = m'
      · simp [h2]
      · rw [if_neg h2, if_neg h2]
        exact ih

theorem regGet_regSet_self (r : List (Nat × Session)) (m : Nat)
    (s : Session) : regGet (regSet r m s) m = some s := by
  simp [regGet, regSet]

theorem regGet_regSet_ne (r : List (Nat × Session)) (m m' : Nat)
    (s : Session) (h : m' ≠ m) :
    regGet (regSet r m s) m' = regGet r m' := by
  have h' : m ≠ m' := fun hc => h hc.symm
  simp [regGet, regSet, h']
  exact regGet_regRemove_ne r m m' h

theorem permOf_nodup (o : List Nat) (s : Finset Nat) :
    (permOf o s).Nodup := by
  unfold permOf
  split
  · next h => exact h.1
  · exact s.sort_nodup (· ≤ ·)

theorem permOf_toFinset (o : List Nat) (s : Finset Nat) :
    (permOf o s).toFinset = s := by
  unfold permOf
  split
  · next h => exact h.2
  · exact s.sort_toFinset (· ≤ ·)

theorem permOf_length (o : List Nat) (s : Finset Nat) :
    (permOf o s).length = s.card := by
  have h := List.toFinset_card_of_nodup (permOf_nodup o s)
  rw [permOf_toFinset] at h
  exact h.symm

theorem mem_permOf (o : List Nat) (s : Finset Nat) (a : Nat) :
    a ∈ permOf o s ↔ a ∈ s := by
  have h := List.mem_toFinset (a := a) (l := permOf o s)
  rw [permOf_toFinset] at h
  exact h.symm

theorem popFrom_mem (pick : Nat) {s : Finset Nat} (h : s.Nonempty) :
    popFrom pick s ∈ s := by
  unfold popFrom
  split
  · next hp => exact hp
  · have hl : (s.sort (· ≤ ·)) ≠ [] := by
      intro hnil
      have := Finset.length_sort (α := Nat) (· ≤ ·) (s := s)
      rw [hnil] at this
      have hc := Finset.card_pos.mpr h
      simp at this
      omega
    have : (s.sort (· ≤ ·)).headI ∈ s.sort (· ≤ ·) := by
      cases hs : s.sort (· ≤ ·) with
      | nil => exact absurd hs hl
      | cons a t => simp
    exact (Finset.mem_sort (· ≤ ·)).mp this

/- ------------------------------------------------------------------ -/
/- Helper lemmas: the two selection blocks.                           -/
/- ------------------------------------------------------------------ -/

theorem closeSelect_fields (o : List Nat) (s : Session) :
    (closeSelect o s).priests = s.priests ∧
    (closeSelect o s).phase = Phase.running ∧
    (closeSelect o s).chat_id = s.chat_id ∧
    (closeSelect o s).message_id = s.message_id :=
  ⟨rfl, rfl, rfl, rfl⟩

theorem closeSelect_runinv (o : List Nat) (s : Session)
    (h : 3 ≤ s.priests.card) : RunInv (closeSelect o s) := by
  have hnd := permOf_nodup o s.priests
  have htf := permOf_toFinset o s.priests
  have hlen := permOf_length o s.priests
  refine ⟨?_, ?_, ?_, ?_⟩
  · show s.priests =
      ((permOf o s.priests).take 2).toFinset ∪
        ((permOf o s.priests).drop 2).toFinset
    rw [← List.toFinset_append, List.take_append_drop, htf]
  · show Disjoint ((permOf o s.priests).take 2).toFinset
      ((permOf o s.priests).drop 2).toFinset
    rw [List.disjoint_toFinset_iff_disjoint]
    exact List.disjoint_take_drop hnd (le_refl 2)
  · show ((permOf o s.priests).take 2).toFinset.card = 2
    have hsub := List.take_sublist 2 (permOf o s.priests)
    rw [List.toFinset_card_of_nodup (hsub.nodup hnd), List.length_take, hlen]
    omega
  · exact h

theorem rotateSelect_fields (o : List Nat) (s : Session) :
    (rotateSelect o s).priests = s.priests ∧
    (rotateSelect o s).phase = s.phase ∧
    (rotateSelect o s).chat_id = s.chat_id ∧
    (rotateSelect o s).message_id = s.message_id :=
  ⟨rfl, rfl, rfl, rfl⟩

theorem rotateSelect_waiting (o : List Nat) (s : Session) :
    (rotateSelect o s).waiting = s.priests \ (rotateSelect o s).in_turn :=
  rfl

theorem rotateSelect_in_turn_subset (o : List Nat) (s : Session) :
    (rotateSelect o s).in_turn ⊆ s.priests := by
  intro a ha
  rw [rotateSelect] at ha
  rw [List.mem_toFinset] at ha
  have h1 : a ∈ permOf o s.priests := by
    rcases (List.take_sublist 2 _).mem ha with h1
    by_cases hf : ((permOf o s.priests).filter
        (fun p => !decide (p ∈ s.in_turn))).length < 2
    · simpa [hf] using h1
    · rw [if_neg hf] at h1
      exact (List.filter_sublist _).mem h1
  exact (mem_permOf o s.priests a).mp h1

theorem rotateSelect_card (o : List Nat) (s : Session)
    (h : 3 ≤ s.priests.card) : (rotateSelect o s).in_turn.card = 2 := by
  have hnd := permOf_nodup o s.priests
  have hlen := permOf_length o s.priests
  rw [rotateSelect]
  by_cases hf : ((permOf o s.priests).filter
      (fun p => !decide (p ∈ s.in_turn))).length < 2
  · rw [if_pos hf]
    have hsub := List.take_sublist 2 (permOf o s.priests)
    rw [List.toFinset_card_of_nodup (hsub.nodup hnd), List.length_take, hlen]
    omega
  · rw [if_neg hf]
    have hndf : ((permOf o s.priests).filter
        (fun p => !decide (p ∈ s.in_turn))).Nodup :=
      (List.filter_sublist _).nodup hnd
    have hsub := List.take_sublist 2 ((permOf o s.priests).filter
      (fun p => !decide (p ∈ s.in_turn)))
    rw [List.toFinset_card_of_nodup (hsub.nodup hndf), List.length_take]
    omega

/-- The length of the non-previous candidate list equals
`|enrolled \ previousOnDuty|`. -/
theorem rotate_candidates_length (o : List Nat) (s : Session) :
    ((permOf o s.priests).filter (fun p => !decide (p ∈ s.in_turn))).length =
      (s.priests \ s.in_turn).card := by
  have hnd := permOf_nodup o s.priests
  have hndf : ((permOf o s.priests).filter
      (fun p => !decide (p ∈ s.in_turn))).Nodup :=
    (List.filter_sublist _).nodup hnd
  rw [← List.toFinset_card_of_nodup hndf, List.toFinset_filter,
    permOf_toFinset]
  congr 1
  rw [Finset.sdiff_eq_filter]
  apply Finset.filter_congr
  intro x _
  simp

theorem rotateSelect_fresh (o : List Nat) (s : Session)
    (h2 : 2 ≤ (s.priests \ s.in_turn).card) :
    Disjoint (rotateSelect o s).in_turn s.in_turn := by
  have hf : ¬ ((permOf o s.priests).filter
      (fun p => !decide (p ∈ s.in_turn))).length < 2 := by
    rw [rotate_candidates_length]
    omega
  rw [Finset.disjoint_left]
  intro a ha hmem
  rw [rotateSelect] at ha
  rw [if_neg hf, List.mem_toFinset] at ha
  have h1 := (List.take_sublist 2 _).mem ha
  rw [List.mem_filter] at h1
  have := h1.2
  simp at this
  exact this hmem

/- ------------------------------------------------------------------ -/
/- Helper lemmas: the join/leave mutation blocks.                     -/
/- ------------------------------------------------------------------ -/

theorem sessMut_frame (uid : Nat) (b : Btn) (s : Session) :
    (sessMut uid b s).in_turn = s.in_turn ∧
    (sessMut uid b s).waiting = s.waiting ∧
    (sessMut uid b s).phase = s.phase := by
  cases b <;> exact ⟨rfl, rfl, rfl⟩

theorem sessMut_turn_join (uid : Nat) (s : Session) :
    sessMut uid Btn.turn_join s = s := rfl

theorem sessMut_turn_leave (uid : Nat) (s : Session) :
    sessMut uid Btn.turn_leave s = s := rfl

theorem turnMut_sess (uid pick : Nat) (s : Session) :
    turnMut uid pick Btn.sess_join s = s ∧
    turnMut uid pick Btn.sess_leave s = s := ⟨rfl, rfl⟩

theorem turnMut_join_mem (uid pick : Nat) (s : Session)
    (hin : uid ∈ s.in_turn) :
    turnMut uid pick Btn.turn_join s =
      { s with priests := insert uid s.priests } := by
  simp [turnMut, hin]

theorem turnMut_join_not_mem (uid pick : Nat) (s : Session)
    (hin : uid ∉ s.in_turn) :
    turnMut uid pick Btn.turn_join s =
      { s with priests := insert uid s.priests,
               waiting := insert uid s.waiting } := by
  simp [turnMut, hin, Finset.insert_idem]

theorem turnMut_leave_pop (uid pick : Nat) (s : Session)
    (hin : uid ∈ s.in_turn) (hne : s.waiting.Nonempty)
    (hnw : uid ∉ s.waiting) :
    turnMut uid pick Btn.turn_leave s =
      { s with priests := s.priests.erase uid,
               in_turn := insert (popFrom pick s.waiting)
                 (s.in_turn.erase uid),
               waiting := s.waiting.erase (popFrom pick s.waiting) } := by
  have h2 : uid ∉ s.waiting.erase (popFrom pick s.waiting) :=
    fun hc2 => hnw (Finset.mem_of_mem_erase hc2)
  simp [turnMut, hin, hne, h2]

theorem turnMut_leave_empty (uid pick : Nat) (s : Session)
    (hin : uid ∈ s.in_turn) (hne : ¬ s.waiting.Nonempty) :
    turnMut uid pick Btn.turn_leave s =
      { s with priests := s.priests.erase uid,
               in_turn := s.in_turn.erase uid } := by
  have hwe : s.waiting = ∅ := Finset.not_nonempty_iff_eq_empty.mp hne
  simp [turnMut, hin, hne, hwe]

theorem turnMut_leave_waiting (uid pick : Nat) (s : Session)
    (hin : uid ∉ s.in_turn) (hw : uid ∈ s.waiting) :
    turnMut uid pick Btn.turn_leave s =
      { s with priests := s.priests.erase uid,
               waiting := s.waiting.erase uid } := by
  simp [turnMut, hin, hw]

theorem turnMut_leave_none (uid pick : Nat) (s : Session)
    (hin : uid ∉ s.in_turn) (hw : uid ∉ s.waiting) :
    turnMut uid pick Btn.turn_leave s = s := by
  simp [turnMut, hin, hw]

/-- The running-phase mutation block keeps the membership invariant:
partition of `priests` into `in_turn` and `waiting` is preserved, and the
on-duty pair keeps size 2 whenever the result still has quorum. -/
theorem turnMut_preserves (uid pick : Nat) (b : Btn) (s : Session)
    (hu : s.priests = s.in_turn ∪ s.waiting)
    (hd : Disjoint s.in_turn s.waiting)
    (hc : s.in_turn.card = 2) :
    (turnMut uid pick b s).priests =
        (turnMut uid pick b s).in_turn ∪ (turnMut uid pick b s).waiting ∧
      Disjoint (turnMut uid pick b s).in_turn (turnMut uid pick b s).waiting ∧
      (3 ≤ (turnMut uid pick b s).priests.card →
        (turnMut uid pick b s).in_turn.card = 2) ∧
      (turnMut uid pick b s).phase = s.phase := by
  cases b with
  | sess_join => exact ⟨hu, hd, fun _ => hc, rfl⟩
  | sess_leave => exact ⟨hu, hd, fun _ => hc, rfl⟩
  | turn_join =>
    by_cases hin : uid ∈ s.in_turn
    · rw [turnMut_join_mem uid pick s hin]
      refine ⟨?_, hd, fun _ => hc, rfl⟩
      show insert uid s.priests = s.in_turn ∪ s.waiting
      rw [hu]
      exact Finset.insert_eq_self.mpr (Finset.mem_union_left _ hin)
    · rw [turnMut_join_not_mem uid pick s hin]
      refine ⟨?_, ?_, fun _ => hc, rfl⟩
      · show insert uid s.priests = s.in_turn ∪ insert uid s.waiting
        rw [hu, Finset.union_insert]
      · exact Finset.disjoint_insert_right.mpr ⟨hin, hd⟩
  | turn_leave =>
    by_cases hin : uid ∈ s.in_turn
    · have hnw : uid ∉ s.waiting := Finset.disjoint_left.mp hd hin
      by_cases hne : s.waiting.Nonempty
      · have hnpw : popFrom pick s.waiting ∈ s.waiting := popFrom_mem pick hne
        have hnpin : popFrom pick s.waiting ∉ s.in_turn :=
          Finset.disjoint_right.mp hd hnpw
        have hnpe : popFrom pick s.waiting ∉ s.in_turn.erase uid :=
          fun hc2 => hnpin (Finset.mem_of_mem_erase hc2)
        rw [turnMut_leave_pop uid pick s hin hne hnw]
        refine ⟨?_, ?_, fun _ => ?_, rfl⟩
        · show s.priests.erase uid =
            insert (popFrom pick s.waiting) (s.in_turn.erase uid) ∪
              s.waiting.erase (popFrom pick s.waiting)
          rw [hu, Finset.erase_union_distrib,
            Finset.erase_eq_self.mpr hnw, Finset.insert_union,
            ← Finset.union_insert, Finset.insert_erase hnpw]
        · show Disjoint
            (insert (popFrom pick s.waiting) (s.in_turn.erase uid))
            (s.waiting.erase (popFrom pick s.waiting))
          refine Finset.disjoint_insert_left.mpr
            ⟨Finset.not_mem_erase _ _, ?_⟩
          exact Disjoint.mono (Finset.erase_subset _ _)
            (Finset.erase_subset _ _) hd
        · show (insert (popFrom pick s.waiting) (s.in_turn.erase uid)).card = 2
          rw [Finset.card_insert_of_not_mem hnpe,
            Finset.card_erase_of_mem hin, hc]
      · rw [turnMut_leave_empty uid pick s hin hne]
        have hwe : s.waiting = ∅ := Finset.not_nonempty_iff_eq_empty.mp hne
        refine ⟨?_, ?_, fun h3 => ?_, rfl⟩
        · show s.priests.erase uid = s.in_turn.erase uid ∪ s.waiting
          rw [hu, hwe, Finset.union_empty, Finset.union_empty]
        · show Disjoint (s.in_turn.erase uid) s.waiting
          rw [hwe]
          exact Finset.disjoint_empty_right _
        · exfalso
          have h4 : (s.priests.erase uid).card = 1 := by
            rw [hu, hwe, Finset.union_empty, Finset.card_erase_of_mem hin,
              hc]
          have h5 : 3 ≤ (s.priests.erase uid).card := h3
          omega
    · by_cases hw : uid ∈ s.waiting
      · rw [turnMut_leave_waiting uid pick s hin hw]
        refine ⟨?_, ?_, fun _ => hc, rfl⟩
        · show s.priests.erase uid = s.in_turn ∪ s.waiting.erase uid
          rw [hu, Finset.erase_union_distrib, Finset.erase_eq_self.mpr hin]
        · exact Disjoint.mono le_rfl (Finset.erase_subset _ _) hd
      · rw [turnMut_leave_none uid pick s hin hw]
        exact ⟨hu, hd, fun _ => hc, rfl⟩

/- ------------------------------------------------------------------ -/
/- Preservation of the running-phase invariant.                       -/
/- ------------------------------------------------------------------ -/

theorem worldInv_init : WorldInv initWorld := by
  intro m s hget _
  simp [initWorld, regGet] at hget

theorem start_worldInv (w : World) (chat msg : Nat) (hW : WorldInv w) :
    WorldInv (sessione_start w chat msg).1 := by
  unfold sessione_start
  by_cases he : ¬ w.sessions.isEmpty
  · rw [if_pos he]
    exact hW
  · rw [if_neg he]
    intro m s hget hrun
    by_cases hm : m = msg
    · subst hm
      rw [regGet_regSet_self] at hget
      cases hget
      cases hrun
    · rw [regGet_regSet_ne _ _ _ _ hm] at hget
      exact hW m s hget hrun

theorem closeJoin_worldInv (w : World) (msg : Nat) (order : List Nat)
    (hW : WorldInv w) :
    WorldInv (sessione_close_join_phase w msg order).1 := by
  unfold sessione_close_join_phase
  cases hreg : regGet w.sessions msg with
  | none => exact hW
  | some s =>
    dsimp only
    by_cases hq : s.priests.card < 3
    · rw [if_pos hq]
      intro m s' hget hrun
      have hget' : regGet (regRemove w.sessions msg) m = some s' := hget
      by_cases hm : m = msg
      · subst hm
        rw [regGet_regRemove_self] at hget'
        cases hget'
      · rw [regGet_regRemove_ne _ _ _ hm] at hget'
        exact hW m s' hget' hrun
    · rw [if_neg hq]
      intro m s' hget hrun
      have hget' :
          regGet (regSet w.sessions msg (closeSelect order s)) m = some s' :=
        hget
      by_cases hm : m = msg
      · subst hm
        rw [regGet_regSet_self] at hget'
        cases hget'
        exact closeSelect_runinv order s (by omega)
      · rw [regGet_regSet_ne _ _ _ _ hm] at hget'
        exact hW m s' hget' hrun

theorem nextTurn_worldInv (w : World) (msg : Nat) (order : List Nat)
    (hW : WorldInv w) :
    WorldInv (sessione_next_turn w msg order).1 := by
  unfold sessione_next_turn
  cases hreg : regGet w.sessions msg with
  | none => exact fun m s hget hrun => hW m s hget hrun
  | some s =>
    dsimp only
    by_cases hq : s.priests.card < 3
    · rw [if_pos hq]
      intro m s' hget hrun
      have hget' : regGet (regRemove w.sessions msg) m = some s' := hget
      by_cases hm : m = msg
      · subst hm
        rw [regGet_regRemove_self] at hget'
        cases hget'
      · rw [regGet_regRemove_ne _ _ _ hm] at hget'
        exact hW m s' hget' hrun
    · rw [if_neg hq]
      intro m s' hget hrun
      have hget' :
          regGet (regSet w.sessions msg (rotateSelect order s)) m = some s' :=
        hget
      by_cases hm : m = msg
      · subst hm
        rw [regGet_regSet_self] at hget'
        cases hget'
        refine ⟨?_, ?_, ?_, ?_⟩
        · show s.priests =
            (rotateSelect order s).in_turn ∪
              (s.priests \ (rotateSelect order s).in_turn)
          exact (Finset.union_sdiff_of_subset
            (rotateSelect_in_turn_subset order s)).symm
        · exact Finset.disjoint_sdiff
        · exact rotateSelect_card order s (by omega)
        · show 3 ≤ s.priests.card
          omega
      · rw [regGet_regSet_ne _ _ _ _ hm] at hget'
        exact hW m s' hget' hrun

theorem removed_worldInv (w : World) (msg : Nat) (hW : WorldInv w) :
    WorldInv { w with sessions := regRemove w.sessions msg } := by
  intro m s' hget hrun
  have hget' : regGet (regRemove w.sessions msg) m = some s' := hget
  by_cases hm : m = msg
  · subst hm
    rw [regGet_regRemove_self] at hget'
    cases hget'
  · rw [regGet_regRemove_ne _ _ _ hm] at hget'
    exact hW m s' hget' hrun

theorem callback_worldInv (w : World) (msg uid pick : Nat) (b : Btn)
    (hW : WorldInv w)
    (hG : goodEv w (Ev.button msg uid pick b) = true) :
    WorldInv (sessione_join_leave_callback w msg uid pick b).1 := by
  unfold sessione_join_leave_callback
  cases hreg : regGet w.sessions msg with
  | none => exact hW
  | some s =>
    dsimp only
    by_cases hph : (sessMut uid b s).phase = Phase.join
    · rw [if_pos hph]
      intro m s' hget hrun
      have hget' :
          regGet (regSet w.sessions msg (sessMut uid b s)) m = some s' :=
        hget
      by_cases hm : m = msg
      · subst hm
        rw [regGet_regSet_self] at hget'
        cases hget'
        rw [hph] at hrun
        cases hrun
      · rw [regGet_regSet_ne _ _ _ _ hm] at hget'
        exact hW m s' hget' hrun
    · rw [if_neg hph]
      have hbturn : b = Btn.turn_join ∨ b = Btn.turn_leave := by
        cases b with
        | sess_join =>
          exfalso
          simp [goodEv, phaseOkAt, hreg] at hG
          exact hph ((sessMut_frame uid Btn.sess_join s).2.2.trans hG)
        | sess_leave =>
          exfalso
          simp [goodEv, phaseOkAt, hreg] at hG
          exact hph ((sessMut_frame uid Btn.sess_leave s).2.2.trans hG)
        | turn_join => exact Or.inl rfl
        | turn_leave => exact Or.inr rfl
      have hsid : sessMut uid b s = s := by
        cases hbturn with
        | inl h => rw [h, sessMut_turn_join]
        | inr h => rw [h, sessMut_turn_leave]
      rw [hsid] at hph ⊢
      have hrun : s.phase = Phase.running := by
        cases hp : s.phase
        · exact absurd hp hph
        · rfl
      obtain ⟨hu, hd, hc, _⟩ := hW msg s hreg hrun
      have hpres := turnMut_preserves uid pick b s hu hd hc
      by_cases hq : (turnMut uid pick b s).priests.card < 3
      · rw [if_pos hq]
        exact removed_worldInv w msg hW
      · rw [if_neg hq]
        intro m s' hget hr
        have hget' :
            regGet (regSet w.sessions msg (turnMut uid pick b s)) m =
              some s' := hget
        by_cases hm : m = msg
        · subst hm
          rw [regGet_regSet_self] at hget'
          cases hget'
          exact ⟨hpres.1, hpres.2.1, hpres.2.2.1 (by omega), by omega⟩
        · rw [regGet_regSet_ne _ _ _ _ hm] at hget'
          exact hW m s' hget' hr

theorem step_worldInv (w : World) (e : Ev) (hW : WorldInv w)
    (hG : goodEv w e = true) : WorldInv (step w e).1 := by
  cases e with
  | start chat msg => exact start_worldInv w chat msg hW
  | button msg uid pick b => exact callback_worldInv w msg uid pick b hW hG
  | closeJoin msg order =>
    unfold step
    dsimp only
    by_cases hj : msg ∈ w.join_timers
    · rw [if_pos hj]
      exact closeJoin_worldInv _ msg order
        (fun m s hget hrun => hW m s hget hrun)
    · rw [if_neg hj]
      exact hW
  | nextTurn msg order =>
    unfold step
    dsimp only
    by_cases hj : msg ∈ w.turn_timers
    · rw [if_pos hj]
      exact nextTurn_worldInv _ msg order hW
    · rw [if_neg hj]
      exact hW

theorem goodReach_worldInv (w : World) (h : GoodReach w) : WorldInv w := by
  induction h with
  | init => exact worldInv_init
  | next w' e _ hG ih => exact step_worldInv w' e ih hG

theorem goodTrace_goodReach (es : List Ev) (w : World) (h : GoodReach w)
    (hg : goodTrace w es = true) : GoodReach (runTrace w es) := by
  induction es generalizing w with
  | nil => exact h
  | cons e t ih =>
    rw [goodTrace, Bool.and_eq_true] at hg
    exact ih (step w e).1 (GoodReach.next w e h hg.1) hg.2

theorem reach_runTrace (es : List Ev) (w : World) (h : Reach w) :
    Reach (runTrace w es) := by
  induction es generalizing w with
  | nil => exact h
  | cons e t ih => exact ih (step w e).1 (Reach.next w e h)

/- ------------------------------------------------------------------ -/
/- Claims.                                                            -/
/- ------------------------------------------------------------------ -/

/-- C1, counterexample.  The claim quantifies over every sequence of join
events, leave events and timer firings, but the `sess_join` branch of
`sessione_join_leave_callback` runs before the phase test: delivering a
`sess_join` to a Running session adds the operator to `priests` without
touching `in_turn` or `waiting`.  Concretely: start, three enrollment
joins, the enrollment timer, then one `sess_join` by a fourth operator
reaches a Running state with `enrolled = {10,11,12,13}` but
`onDuty ∪ waiting = {10,11,12}`. -/
theorem C1_counterexample :
    Reach (runTrace initWorld
      [Ev.start 7 1, Ev.button 1 10 0 Btn.sess_join,
       Ev.button 1 11 0 Btn.sess_join, Ev.button 1 12 0 Btn.sess_join,
       Ev.closeJoin 1 [10, 11, 12], Ev.button 1 13 0 Btn.sess_join]) ∧
    ∃ s, regGet (runTrace initWorld
      [Ev.start 7 1, Ev.button 1 10 0 Btn.sess_join,
       Ev.button 1 11 0 Btn.sess_join, Ev.button 1 12 0 Btn.sess_join,
       Ev.closeJoin 1 [10, 11, 12],
       Ev.button 1 13 0 Btn.sess_join]).sessions 1 = some s ∧
      s.phase = Phase.running ∧ ¬ s.priests = s.in_turn ∪ s.waiting := by
  refine ⟨reach_runTrace _ _ Reach.init,
    ⟨{ chat_id := 7, message_id := 1, priests := {10, 11, 12, 13},
       in_turn := {10, 11}, waiting := {12}, phase := Phase.running },
     by decide, rfl, by decide⟩⟩

/-- C1 (amended): in every state reachable by a sequence of join events,
leave events and timer firings in which the enrollment-variety buttons
(`sess_join`/`sess_leave`) are only delivered while the target session's
phase is still Joining, every Running session satisfies
`enrolled = onDuty ∪ waiting`, `onDuty ∩ waiting = ∅`, and `|onDuty| = 2`
whenever `|enrolled| ≥ 3`. -/
theorem C1_running_invariant (w : World) (h : GoodReach w) (msg : Nat)
    (s : Session) (hget : regGet w.sessions msg = some s)
    (hrun : s.phase = Phase.running) :
    s.priests = s.in_turn ∪ s.waiting ∧ Disjoint s.in_turn s.waiting ∧
      (3 ≤ s.priests.card → s.in_turn.card = 2) := by
  obtain ⟨h1, h2, h3, _⟩ := goodReach_worldInv w h msg s hget hrun
  exact ⟨h1, h2, fun _ => h3⟩

theorem C1_running_invariant_witness :
    ({ chat_id := 7, message_id := 1, priests := {10, 11, 12, 13},
       in_turn := {10, 11}, waiting := {12, 13},
       phase := Phase.running } : Session).priests =
        ({ chat_id := 7, message_id := 1, priests := {10, 11, 12, 13},
           in_turn := {10, 11}, waiting := {12, 13},
           phase := Phase.running } : Session).in_turn ∪
          ({ chat_id := 7, message_id := 1, priests := {10, 11, 12, 13},
             in_turn := {10, 11}, waiting := {12, 13},
             phase := Phase.running } : Session).waiting ∧
      Disjoint
        ({ chat_id := 7, message_id := 1, priests := {10, 11, 12, 13},
           in_turn := {10, 11}, waiting := {12, 13},
           phase := Phase.running } : Session).in_turn
        ({ chat_id := 7, message_id := 1, priests := {10, 11, 12, 13},
           in_turn := {10, 11}, waiting := {12, 13},
           phase := Phase.running } : Session).waiting ∧
      (3 ≤ ({ chat_id := 7, message_id := 1, priests := {10, 11, 12, 13},
              in_turn := {10, 11}, waiting := {12, 13},
              phase := Phase.running } : Session).priests.card →
        ({ chat_id := 7, message_id := 1, priests := {10, 11, 12, 13},
           in_turn := {10, 11}, waiting := {12, 13},
           phase := Phase.running } : Session).in_turn.card = 2) :=
  C1_running_invariant
    (runTrace initWorld
      [Ev.start 7 1, Ev.button 1 10 0 Btn.sess_join,
       Ev.button 1 11 0 Btn.sess_join, Ev.button 1 12 0 Btn.sess_join,
       Ev.closeJoin 1 [10, 11, 12], Ev.button 1 13 0 Btn.turn_join])
    (goodTrace_goodReach _ _ GoodReach.init (by decide)) 1 _ (by decide) rfl

/-- C6: a session-start request fails with `AlreadyActive` exactly when
some session exists in the registry (the code tests truthiness of the
stored dicts, which are never empty), regardless of scope, leaving the
registry unchanged; otherwise it inserts a fresh Joining-phase session
with empty membership sets keyed by the anchor id.  The final closed
conjunct replays the spec scenario: after an under-quorum enrollment
window empties the registry, a start for a different scope succeeds. -/
theorem C6_start_exclusive (w : World) (chat msg : Nat) :
    (w.sessions ≠ [] →
      step w (Ev.start chat msg) = (w, [Eff.replyAlreadyActive])) ∧
    (w.sessions = [] →
      (step w (Ev.start chat msg)).1.sessions =
          [(msg, { chat_id := chat, message_id := msg, priests := ∅,
                   in_turn := ∅, waiting := ∅, phase := Phase.join })] ∧
        (step w (Ev.start chat msg)).2 = [Eff.scheduleOnce msg JOIN_WINDOW]) ∧
    ((runTrace initWorld
        [Ev.start 7 1, Ev.button 1 10 0 Btn.sess_join,
         Ev.button 1 11 0 Btn.sess_join,
         Ev.closeJoin 1 [10, 11]]).sessions = [] ∧
      (step (runTrace initWorld
          [Ev.start 7 1, Ev.button 1 10 0 Btn.sess_join,
           Ev.button 1 11 0 Btn.sess_join, Ev.closeJoin 1 [10, 11]])
        (Ev.start 8 2)).1.sessions =
        [(2, { chat_id := 8, message_id := 2, priests := ∅, in_turn := ∅,
               waiting := ∅, phase := Phase.join })]) := by
  refine ⟨?_, ?_, by decide, by decide⟩
  · intro hne
    show sessione_start w chat msg = _
    unfold sessione_start
    rw [if_pos]
    simpa using hne
  · intro he
    show (sessione_start w chat msg).1.sessions = _ ∧
      (sessione_start w chat msg).2 = _
    unfold sessione_start
    rw [if_neg (by simpa using he)]
    refine ⟨?_, rfl⟩
    show regSet w.sessions msg _ = _
    rw [he]
    rfl

theorem C6_start_exclusive_witness :
    (step initWorld (Ev.start 7 1)).1.sessions =
        [(1, { chat_id := 7, message_id := 1, priests := ∅, in_turn := ∅,
               waiting := ∅, phase := Phase.join })] ∧
      (step initWorld (Ev.start 7 1)).2 =
        [Eff.scheduleOnce 1 JOIN_WINDOW] :=
  (C6_start_exclusive initWorld 7 1).2.1 rfl

/-- C7: a join or leave button event, or a rotation-timer firing, whose
anchor id is not in the registry is a no-op on session state and
terminates normally: the button handler only answers the "session no
longer active" alert, and the rotation callback leaves the registry
untouched (it merely removes its own stale job). -/
theorem C7_missing_session (w : World) (msg uid pick : Nat) (b : Btn)
    (order : List Nat) (h : regGet w.sessions msg = none) :
    step w (Ev.button msg uid pick b) = (w, [Eff.answerNotActive]) ∧
    (step w (Ev.nextTurn msg order)).1.sessions = w.sessions := by
  constructor
  · show sessione_join_leave_callback w msg uid pick b = _
    unfold sessione_join_leave_callback
    rw [h]
  · unfold step
    dsimp only
    by_cases hj : msg ∈ w.turn_timers
    · rw [if_pos hj]
      unfold sessione_next_turn
      rw [h]
    · rw [if_neg hj]

theorem C7_missing_session_witness :
    step initWorld (Ev.button 5 9 0 Btn.sess_join) =
        (initWorld, [Eff.answerNotActive]) ∧
      (step initWorld (Ev.nextTurn 5 [])).1.sessions =
        initWorld.sessions :=
  C7_missing_session initWorld 5 9 0 Btn.sess_join [] rfl

/-- C10: a Running-phase `turn_leave` by an operator who is in neither
`onDuty` nor `waiting` changes none of the membership sets — in
particular the operator stays in `enrolled` even when enrolled contains
them — while the quorum-loss check and the re-render still execute: with
quorum intact the unchanged session is stored back and the running
roster is re-rendered, and without quorum the session is removed with the
quorum-lost notice. -/
theorem C10_stranger_leave (w : World) (msg uid pick : Nat) (s : Session)
    (hreg : regGet w.sessions msg = some s)
    (hrun : s.phase = Phase.running)
    (hin : uid ∉ s.in_turn) (hw : uid ∉ s.waiting) :
    (3 ≤ s.priests.card →
      (step w (Ev.button msg uid pick Btn.turn_leave)).1.sessions =
          regSet w.sessions msg s ∧
        regGet (step w (Ev.button msg uid pick Btn.turn_leave)).1.sessions
            msg = some s ∧
        (step w (Ev.button msg uid pick Btn.turn_leave)).2 =
          [Eff.editRunRender msg]) ∧
    (s.priests.card < 3 →
      regGet (step w (Ev.button msg uid pick Btn.turn_leave)).1.sessions
          msg = none ∧
        (step w (Ev.button msg uid pick Btn.turn_leave)).2 =
          [Eff.editQuorumLost msg]) := by
  have hstep : step w (Ev.button msg uid pick Btn.turn_leave) =
      sessione_join_leave_callback w msg uid pick Btn.turn_leave := rfl
  rw [hstep]
  unfold sessione_join_leave_callback
  rw [hreg]
  dsimp only
  rw [sessMut_turn_leave]
  rw [if_neg (by rw [hrun]; exact fun hc => Phase.noConfusion hc)]
  rw [turnMut_leave_none uid pick s hin hw]
  constructor
  · intro h3
    rw [if_neg (by omega)]
    exact ⟨rfl, regGet_regSet_self _ _ _, rfl⟩
  · intro h3
    rw [if_pos h3]
    exact ⟨regGet_regRemove_self _ _, rfl⟩

theorem C10_stranger_leave_witness :
    (3 ≤ ({ chat_id := 7, message_id := 1, priests := {10, 11, 12},
            in_turn := {10, 11}, waiting := {12},
            phase := Phase.running } : Session).priests.card →
      (step (runTrace initWorld
          [Ev.start 7 1, Ev.button 1 10 0 Btn.sess_join,
           Ev.button 1 11 0 Btn.sess_join, Ev.button 1 12 0 Btn.sess_join,
           Ev.closeJoin 1 [10, 11, 12]])
        (Ev.button 1 99 0 Btn.turn_leave)).1.sessions =
          regSet (runTrace initWorld
            [Ev.start 7 1, Ev.button 1 10 0 Btn.sess_join,
             Ev.button 1 11 0 Btn.sess_join, Ev.button 1 12 0 Btn.sess_join,
             Ev.closeJoin 1 [10, 11, 12]]).sessions 1
            { chat_id := 7, message_id := 1, priests := {10, 11, 12},
              in_turn := {10, 11}, waiting := {12},
              phase := Phase.running } ∧
        regGet (step (runTrace initWorld
            [Ev.start 7 1, Ev.button 1 10 0 Btn.sess_join,
             Ev.button 1 11 0 Btn.sess_join, Ev.button 1 12 0 Btn.sess_join,
             Ev.closeJoin 1 [10, 11, 12]])
          (Ev.button 1 99 0 Btn.turn_leave)).1.sessions 1 =
          some { chat_id := 7, message_id := 1, priests := {10, 11, 12},
                 in_turn := {10, 11}, waiting := {12},
                 phase := Phase.running } ∧
        (step (runTrace initWorld
            [Ev.start 7 1, Ev.button 1 10 0 Btn.sess_join,
             Ev.button 1 11 0 Btn.sess_join, Ev.button 1 12 0 Btn.sess_join,
             Ev.closeJoin 1 [10, 11, 12]])
          (Ev.button 1 99 0 Btn.turn_leave)).2 = [Eff.editRunRender 1]) ∧
    (({ chat_id := 7, message_id := 1, priests := {10, 11, 12},
        in_turn := {10, 11}, waiting := {12},
        phase := Phase.running } : Session).priests.card < 3 →
      regGet (step (runTrace initWorld
          [Ev.start 7 1, Ev.button 1 10 0 Btn.sess_join,
           Ev.button 1 11 0 Btn.sess_join, Ev.button 1 12 0 Btn.sess_join,
           Ev.closeJoin 1 [10, 11, 12]])
        (Ev.button 1 99 0 Btn.turn_leave)).1.sessions 1 = none ∧
        (step (runTrace initWorld
            [Ev.start 7 1, Ev.button 1 10 0 Btn.sess_join,
             Ev.button 1 11 0 Btn.sess_join, Ev.button 1 12 0 Btn.sess_join,
             Ev.closeJoin 1 [10, 11, 12]])
          (Ev.button 1 99 0 Btn.turn_leave)).2 = [Eff.editQuorumLost 1]) :=
  C10_stranger_leave _ 1 99 0 _ (by decide) rfl (by decide) (by decide)

/-- C3: when the rotation timer fires for a Running-phase session with
`|enrolled| ≥ 3`, the session is re-stored as `rotateSelect order s`, for
which: if `|enrolled \\ previousOnDuty| ≥ 2` the new `onDuty` avoids
`previousOnDuty` entirely; in all cases `|onDuty| = 2`,
`waiting = enrolled \\ onDuty` and `enrolled` is unchanged.  The closed
final conjunct shows the fallback really can reselect previous on-duty
members when fewer than two fresh candidates exist. -/
theorem C3_rotation (w : World) (msg : Nat) (order : List Nat) (s : Session)
    (hreg : regGet w.sessions msg = some s)
    (htimer : msg ∈ w.turn_timers)
    (hq : 3 ≤ s.priests.card) :
    (regGet (step w (Ev.nextTurn msg order)).1.sessions msg =
        some (rotateSelect order s) ∧
      (2 ≤ (s.priests \ s.in_turn).card →
        Disjoint (rotateSelect order s).in_turn s.in_turn) ∧
      (rotateSelect order s).in_turn.card = 2 ∧
      (rotateSelect order s).waiting =
        s.priests \ (rotateSelect order s).in_turn ∧
      (rotateSelect order s).priests = s.priests) ∧
    ((regGet (runTrace initWorld
        [Ev.start 7 1, Ev.button 1 10 0 Btn.sess_join,
         Ev.button 1 11 0 Btn.sess_join, Ev.button 1 12 0 Btn.sess_join,
         Ev.closeJoin 1 [10, 11, 12]]).sessions 1).elim 0
        (fun s1 => (s1.priests \ s1.in_turn).card) = 1 ∧
      (regGet (runTrace initWorld
        [Ev.start 7 1, Ev.button 1 10 0 Btn.sess_join,
         Ev.button 1 11 0 Btn.sess_join, Ev.button 1 12 0 Btn.sess_join,
         Ev.closeJoin 1 [10, 11, 12]]).sessions 1).elim ∅
        Session.in_turn = {10, 11} ∧
      (regGet (runTrace initWorld
        [Ev.start 7 1, Ev.button 1 10 0 Btn.sess_join,
         Ev.button 1 11 0 Btn.sess_join, Ev.button 1 12 0 Btn.sess_join,
         Ev.closeJoin 1 [10, 11, 12],
         Ev.nextTurn 1 [10, 11, 12]]).sessions 1).elim ∅
        Session.in_turn = {10, 11}) := by
  constructor
  · have hstep : step w (Ev.nextTurn msg order) =
        sessione_next_turn w msg order := by
      show (if msg ∈ w.turn_timers then sessione_next_turn w msg order
        else (w, [])) = _
      rw [if_pos htimer]
    rw [hstep]
    unfold sessione_next_turn
    rw [hreg]
    dsimp only
    rw [if_neg (by omega)]
    refine ⟨regGet_regSet_self _ _ _, ?_, rotateSelect_card order s hq,
      rotateSelect_waiting order s, rfl⟩
    intro h2
    exact rotateSelect_fresh order s h2
  · exact ⟨by decide, by decide, by decide⟩

theorem C3_rotation_witness :
    regGet (step (runTrace initWorld
        [Ev.start 7 1, Ev.button 1 10 0 Btn.sess_join,
         Ev.button 1 11 0 Btn.sess_join, Ev.button 1 12 0 Btn.sess_join,
         Ev.button 1 13 0 Btn.sess_join, Ev.closeJoin 1 [10, 11, 12, 13]])
      (Ev.nextTurn 1 [12, 13, 10, 11])).1.sessions 1 =
        some (rotateSelect [12, 13, 10, 11]
          { chat_id := 7, message_id := 1, priests := {10, 11, 12, 13},
            in_turn := {10, 11}, waiting := {12, 13},
            phase := Phase.running }) ∧
      (2 ≤ (({ chat_id := 7, message_id := 1, priests := {10, 11, 12, 13},
               in_turn := {10, 11}, waiting := {12, 13},
               phase := Phase.running } : Session).priests \
          ({ chat_id := 7, message_id := 1, priests := {10, 11, 12, 13},
             in_turn := {10, 11}, waiting := {12, 13},
             phase := Phase.running } : Session).in_turn).card →
        Disjoint (rotateSelect [12, 13, 10, 11]
            { chat_id := 7, message_id := 1, priests := {10, 11, 12, 13},
              in_turn := {10, 11}, waiting := {12, 13},
              phase := Phase.running }).in_turn
          ({ chat_id := 7, message_id := 1, priests := {10, 11, 12, 13},
             in_turn := {10, 11}, waiting := {12, 13},
             phase := Phase.running } : Session).in_turn) ∧
      (rotateSelect [12, 13, 10, 11]
          { chat_id := 7, message_id := 1, priests := {10, 11, 12, 13},
            in_turn := {10, 11}, waiting := {12, 13},
            phase := Phase.running }).in_turn.card = 2 ∧
      (rotateSelect [12, 13, 10, 11]
          { chat_id := 7, message_id := 1, priests := {10, 11, 12, 13},
            in_turn := {10, 11}, waiting := {12, 13},
            phase := Phase.running }).waiting =
        ({ chat_id := 7, message_id := 1, priests := {10, 11, 12, 13},
           in_turn := {10, 11}, waiting := {12, 13},
           phase := Phase.running } : Session).priests \
          (rotateSelect [12, 13, 10, 11]
            { chat_id := 7, message_id := 1, priests := {10, 11, 12, 13},
              in_turn := {10, 11}, waiting := {12, 13},
              phase := Phase.running }).in_turn ∧
      (rotateSelect [12, 13, 10, 11]
          { chat_id := 7, message_id := 1, priests := {10, 11, 12, 13},
            in_turn := {10, 11}, waiting := {12, 13},
            phase := Phase.running }).priests =
        ({ chat_id := 7, message_id := 1, priests := {10, 11, 12, 13},
           in_turn := {10, 11}, waiting := {12, 13},
           phase := Phase.running } : Session).priests :=
  (C3_rotation _ 1 [12, 13, 10, 11] _ (by decide) (by decide)
    (by decide)).1

/-- C4: a Running-phase `turn_leave` by an on-duty operator while
`waiting ≠ ∅` (for a session satisfying the running invariant): if the
leave keeps `|enrolled| ≥ 3` the session survives with `|onDuty| = 2`,
the leaver replaced by a popped member of `waiting`; if it drops
`|enrolled|` below 3 the session no longer exists in the registry. -/
theorem C4_replacement (w : World) (msg uid pick : Nat) (s : Session)
    (hreg : regGet w.sessions msg = some s)
    (hrun : s.phase = Phase.running)
    (hin : uid ∈ s.in_turn)
    (hne : s.waiting.Nonempty)
    (hinv : RunInv s) :
    (3 ≤ (s.priests.erase uid).card →
      ∃ s', regGet
          (step w (Ev.button msg uid pick Btn.turn_leave)).1.sessions msg =
            some s' ∧
        s'.in_turn.card = 2 ∧
        (∃ p ∈ s.waiting, s'.in_turn = insert p (s.in_turn.erase uid)) ∧
        s'.priests = s.priests.erase uid) ∧
    ((s.priests.erase uid).card < 3 →
      regGet
        (step w (Ev.button msg uid pick Btn.turn_leave)).1.sessions msg =
          none) := by
  obtain ⟨hu, hd, hc, hq⟩ := hinv
  have hnw : uid ∉ s.waiting := Finset.disjoint_left.mp hd hin
  have hnpw : popFrom pick s.waiting ∈ s.waiting := popFrom_mem pick hne
  have hnpe : popFrom pick s.waiting ∉ s.in_turn.erase uid :=
    fun hc2 =>
      Finset.disjoint_right.mp hd hnpw (Finset.mem_of_mem_erase hc2)
  have hstep : step w (Ev.button msg uid pick Btn.turn_leave) =
      sessione_join_leave_callback w msg uid pick Btn.turn_leave := rfl
  rw [hstep]
  unfold sessione_join_leave_callback
  rw [hreg]
  dsimp only
  rw [sessMut_turn_leave]
  rw [if_neg (by rw [hrun]; exact fun hc3 => Phase.noConfusion hc3)]
  rw [turnMut_leave_pop uid pick s hin hne hnw]
  constructor
  · intro h3
    rw [if_neg (by
      show ¬ ((s.priests.erase uid).card < 3)
      omega)]
    refine ⟨_, regGet_regSet_self _ _ _, ?_, ?_, rfl⟩
    · show (insert (popFrom pick s.waiting) (s.in_turn.erase uid)).card = 2
      rw [Finset.card_insert_of_not_mem hnpe,
        Finset.card_erase_of_mem hin, hc]
    · exact ⟨popFrom pick s.waiting, hnpw, rfl⟩
  · intro h3
    rw [if_pos (by
      show (s.priests.erase uid).card < 3
      omega)]
    exact regGet_regRemove_self _ _

theorem C4_replacement_witness :
    (3 ≤ (({ chat_id := 7, message_id := 1, priests := {10, 11, 12, 13},
             in_turn := {10, 11}, waiting := {12, 13},
             phase := Phase.running } : Session).priests.erase 10).card →
      ∃ s', regGet (step (runTrace initWorld
          [Ev.start 7 1, Ev.button 1 10 0 Btn.sess_join,
           Ev.button 1 11 0 Btn.sess_join, Ev.button 1 12 0 Btn.sess_join,
           Ev.button 1 13 0 Btn.sess_join, Ev.closeJoin 1 [10, 11, 12, 13]])
        (Ev.button 1 10 12 Btn.turn_leave)).1.sessions 1 = some s' ∧
        s'.in_turn.card = 2 ∧
        (∃ p ∈ ({ chat_id := 7, message_id := 1,
                  priests := {10, 11, 12, 13}, in_turn := {10, 11},
                  waiting := {12, 13},
                  phase := Phase.running } : Session).waiting,
          s'.in_turn = insert p
            (({ chat_id := 7, message_id := 1, priests := {10, 11, 12, 13},
                in_turn := {10, 11}, waiting := {12, 13},
                phase := Phase.running } : Session).in_turn.erase 10)) ∧
        s'.priests =
          ({ chat_id := 7, message_id := 1, priests := {10, 11, 12, 13},
             in_turn := {10, 11}, waiting := {12, 13},
             phase := Phase.running } : Session).priests.erase 10) ∧
    ((({ chat_id := 7, message_id := 1, priests := {10, 11, 12, 13},
         in_turn := {10, 11}, waiting := {12, 13},
         phase := Phase.running } : Session).priests.erase 10).card < 3 →
      regGet (step (runTrace initWorld
          [Ev.start 7 1, Ev.button 1 10 0 Btn.sess_join,
           Ev.button 1 11 0 Btn.sess_join, Ev.button 1 12 0 Btn.sess_join,
           Ev.button 1 13 0 Btn.sess_join, Ev.closeJoin 1 [10, 11, 12, 13]])
        (Ev.button 1 10 12 Btn.turn_leave)).1.sessions 1 = none) :=
  C4_replacement _ 1 10 12 _ (by decide) rfl (by decide) (by decide)
    ⟨by decide, by decide, by decide, by decide⟩

/-- One enrollment-phase button event on a Joining session: the session
is re-stored with only `priests` mutated by `sessMut`, every other field
(and the phase) untouched. -/
theorem jl_step (w : World) (msg : Nat) (x : Bool × Nat) (s : Session)
    (hreg : regGet w.sessions msg = some s)
    (hph : s.phase = Phase.join) :
    (step w (jlEv msg x)).1 =
      { w with sessions := regSet w.sessions msg (sessMut x.2
          (if x.1 then Btn.sess_join else Btn.sess_leave) s) } := by
  have hph2 : (sessMut x.2
      (if x.1 then Btn.sess_join else Btn.sess_leave) s).phase =
      Phase.join := by
    cases x.1 <;> exact hph
  show (sessione_join_leave_callback w msg x.2 0
    (if x.1 then Btn.sess_join else Btn.sess_leave)).1 = _
  unfold sessione_join_leave_callback
  rw [hreg]
  dsimp only
  rw [if_pos hph2]

/-- Replaying a list of enrollment-phase join/leave events on a Joining
session folds `priests` and frames everything else. -/
theorem jl_runTrace (es : List (Bool × Nat)) (w : World) (msg : Nat)
    (s : Session) (hreg : regGet w.sessions msg = some s)
    (hph : s.phase = Phase.join) :
    regGet (runTrace w (es.map (jlEv msg))).sessions msg =
      some { s with priests :=
                      es.foldl (fun P x =>
                        if x.1 then insert x.2 P else P.erase x.2)
                        s.priests } := by
  induction es generalizing w s with
  | nil => exact hreg
  | cons x t ih =>
    have h1 : runTrace w (List.map (jlEv msg) (x :: t)) =
        runTrace (step w (jlEv msg x)).1 (List.map (jlEv msg) t) := rfl
    have hsm : sessMut x.2 (if x.1 then Btn.sess_join else Btn.sess_leave)
        s = { s with priests := if x.1 then insert x.2 s.priests
                                else s.priests.erase x.2 } := by
      cases x.1 <;> rfl
    rw [h1, jl_step w msg x s hreg hph, hsm]
    have hph2 : ({ s with priests := if x.1 then insert x.2 s.priests
        else s.priests.erase x.2 } : Session).phase = Phase.join := hph
    exact ih _ _ (regGet_regSet_self _ _ _) hph2

/-- An operator is in the folded enrollment set iff the last event of the
sequence touching them is a join (the baseline membership decides when no
event touches them). -/
theorem foldl_last_event (es : List (Bool × Nat)) (P : Finset Nat)
    (u : Nat) :
    (u ∈ es.foldl
        (fun P x => if x.1 then insert x.2 P else P.erase x.2) P) ↔
      (match lastEvent u es with
       | some b => b = true
       | none => u ∈ P) := by
  induction es generalizing P with
  | nil => exact Iff.rfl
  | cons x t ih =>
    rw [List.foldl_cons]
    rw [ih (if x.1 then insert x.2 P else P.erase x.2)]
    show _ ↔ (match lastEvent u (x :: t) with
      | some b => b = true
      | none => u ∈ P)
    rw [lastEvent]
    cases hlast : lastEvent u t with
    | some b => exact Iff.rfl
    | none =>
      by_cases hxu : x.2 = u
      · rw [if_pos hxu]
        cases hx1 : x.1 with
        | true =>
          rw [if_pos rfl]
          subst hxu
          simp
        | false =>
          rw [if_neg (by simp)]
          subst hxu
          simp
      · rw [if_neg hxu]
        cases hx1 : x.1 with
        | true =>
          rw [if_pos rfl, Finset.mem_insert]
          constructor
          · intro h
            cases h with
            | inl h => exact absurd h.symm hxu
            | inr h => exact h
          · exact Or.inr
        | false =>
          rw [if_neg (by simp), Finset.mem_erase]
          constructor
          · exact fun h => h.2
          · exact fun h => ⟨fun hc => hxu hc.symm, h⟩

/-- C8: replaying any sequence of enrollment-phase join/leave events on a
Joining session leaves `phase`, `onDuty` and `waiting` untouched and
makes `enrolled` exactly the fold of the events; membership is exactly
"the last event touching the operator is a join" (falling back to the
baseline membership for untouched operators — the empty set for a fresh
session); joining while already enrolled and leaving while not enrolled
re-store the very same session. -/
theorem C8_joining_fold (w : World) (msg : Nat) (s : Session)
    (es : List (Bool × Nat))
    (hreg : regGet w.sessions msg = some s)
    (hph : s.phase = Phase.join) :
    (regGet (runTrace w (es.map (jlEv msg))).sessions msg =
      some { s with priests :=
                      es.foldl (fun P x =>
                        if x.1 then insert x.2 P else P.erase x.2)
                        s.priests }) ∧
    (∀ u, (u ∈ es.foldl
        (fun P x => if x.1 then insert x.2 P else P.erase x.2)
          s.priests) ↔
      (match lastEvent u es with
       | some b => b = true
       | none => u ∈ s.priests)) ∧
    (∀ u, u ∈ s.priests →
      (step w (jlEv msg (true, u))).1 =
        { w with sessions := regSet w.sessions msg s }) ∧
    (∀ u, u ∉ s.priests →
      (step w (jlEv msg (false, u))).1 =
        { w with sessions := regSet w.sessions msg s }) := by
  refine ⟨jl_runTrace es w msg s hreg hph,
    fun u => foldl_last_event es s.priests u, fun u hu => ?_, fun u hu => ?_⟩
  · rw [jl_step w msg (true, u) s hreg hph]
    have h2 : sessMut u (if true then Btn.sess_join else Btn.sess_leave) s
        = s := by
      show ({ s with priests := insert u s.priests } : Session) = s
      rw [Finset.insert_eq_self.mpr hu]
    rw [h2]
  · rw [jl_step w msg (false, u) s hreg hph]
    have h2 : sessMut u (if false then Btn.sess_join else Btn.sess_leave) s
        = s := by
      show ({ s with priests := s.priests.erase u } : Session) = s
      rw [Finset.erase_eq_self.mpr hu]
    rw [h2]

theorem C8_joining_fold_witness :
    (regGet (runTrace (step initWorld (Ev.start 7 1)).1
        (List.map (jlEv 1)
          [(true, 10), (true, 11), (false, 10), (true, 12)])).sessions 1 =
      some (Session.mk 7 1
        ([((true : Bool), (10 : Nat)), (true, 11), (false, 10),
          (true, 12)].foldl
          (fun P x => if x.1 then insert x.2 P else P.erase x.2) ∅)
        ∅ ∅ Phase.join)) ∧
    ((10 : Nat) ∈
        [((true : Bool), (10 : Nat)), (true, 11), (false, 10),
         (true, 12)].foldl
          (fun P x => if x.1 then insert x.2 P else P.erase x.2)
          (∅ : Finset Nat) ↔
      (match lastEvent 10 [((true : Bool), (10 : Nat)), (true, 11),
          (false, 10), (true, 12)] with
       | some b => b = true
       | none => (10 : Nat) ∈ (∅ : Finset Nat))) := by
  have hC := C8_joining_fold (step initWorld (Ev.start 7 1)).1 1
    (Session.mk 7 1 ∅ ∅ ∅ Phase.join)
    [(true, 10), (true, 11), (false, 10), (true, 12)] (by decide) rfl
  exact ⟨hC.1, hC.2.1 10⟩

/-- The running-phase shape of the button callback: after the (non-join)
phase test, the session is mutated by `turnMut` and either torn down by
the quorum check or re-stored and re-rendered. -/
theorem callback_running (w : World) (msg uid pick : Nat) (b : Btn)
    (s : Session) (hreg : regGet w.sessions msg = some s)
    (hph : ¬ (sessMut uid b s).phase = Phase.join) :
    step w (Ev.button msg uid pick b) =
      (if (turnMut uid pick b (sessMut uid b s)).priests.card < 3 then
        ({ w with sessions := regRemove w.sessions msg },
         [Eff.editQuorumLost msg])
      else
        ({ w with sessions :=
              regSet w.sessions msg (turnMut uid pick b (sessMut uid b s)) },
         [Eff.editRunRender msg])) := by
  show sessione_join_leave_callback w msg uid pick b = _
  unfold sessione_join_leave_callback
  rw [hreg]
  dsimp only
  rw [if_neg hph]

/-- C9: an enrollment-variety button (`sess_join`/`sess_leave`) delivered
while the session is Running still mutates `enrolled` (insert resp.
erase), leaves `onDuty` and `waiting` untouched, and the Running-phase
quorum-loss check then runs on the mutated `enrolled` (teardown exactly
when it drops below 3).  The closed conjuncts replay two traces showing
the fallout: a Running state with `enrolled ⊋ onDuty ∪ waiting`, and a
Running state with a `waiting` member no longer in `enrolled`. -/
theorem C9_sess_buttons_running (w : World) (msg uid pick : Nat)
    (s : Session) (hreg : regGet w.sessions msg = some s)
    (hrun : s.phase = Phase.running) :
    (3 ≤ (insert uid s.priests).card →
      (step w (Ev.button msg uid pick Btn.sess_join)).1.sessions =
        regSet w.sessions msg
          ({ s with priests := insert uid s.priests })) ∧
    ((insert uid s.priests).card < 3 →
      regGet (step w (Ev.button msg uid pick Btn.sess_join)).1.sessions
          msg = none ∧
        (step w (Ev.button msg uid pick Btn.sess_join)).2 =
          [Eff.editQuorumLost msg]) ∧
    (3 ≤ (s.priests.erase uid).card →
      (step w (Ev.button msg uid pick Btn.sess_leave)).1.sessions =
        regSet w.sessions msg
          ({ s with priests := s.priests.erase uid })) ∧
    ((s.priests.erase uid).card < 3 →
      regGet (step w (Ev.button msg uid pick Btn.sess_leave)).1.sessions
          msg = none ∧
        (step w (Ev.button msg uid pick Btn.sess_leave)).2 =
          [Eff.editQuorumLost msg]) ∧
    ((regGet (runTrace initWorld
        [Ev.start 7 1, Ev.button 1 10 0 Btn.sess_join,
         Ev.button 1 11 0 Btn.sess_join, Ev.button 1 12 0 Btn.sess_join,
         Ev.closeJoin 1 [10, 11, 12],
         Ev.button 1 13 0 Btn.sess_join]).sessions 1).elim Phase.join
        Session.phase = Phase.running ∧
      (regGet (runTrace initWorld
        [Ev.start 7 1, Ev.button 1 10 0 Btn.sess_join,
         Ev.button 1 11 0 Btn.sess_join, Ev.button 1 12 0 Btn.sess_join,
         Ev.closeJoin 1 [10, 11, 12],
         Ev.button 1 13 0 Btn.sess_join]).sessions 1).elim ∅
        Session.priests = {10, 11, 12, 13} ∧
      (regGet (runTrace initWorld
        [Ev.start 7 1, Ev.button 1 10 0 Btn.sess_join,
         Ev.button 1 11 0 Btn.sess_join, Ev.button 1 12 0 Btn.sess_join,
         Ev.closeJoin 1 [10, 11, 12],
         Ev.button 1 13 0 Btn.sess_join]).sessions 1).elim ∅
        (fun s2 => s2.in_turn ∪ s2.waiting) = {10, 11, 12}) ∧
    ((regGet (runTrace initWorld
        [Ev.start 7 1, Ev.button 1 10 0 Btn.sess_join,
         Ev.button 1 11 0 Btn.sess_join, Ev.button 1 12 0 Btn.sess_join,
         Ev.button 1 13 0 Btn.sess_join, Ev.closeJoin 1 [10, 11, 12, 13],
         Ev.button 1 12 0 Btn.sess_leave]).sessions 1).elim Phase.join
        Session.phase = Phase.running ∧
      (regGet (runTrace initWorld
        [Ev.start 7 1, Ev.button 1 10 0 Btn.sess_join,
         Ev.button 1 11 0 Btn.sess_join, Ev.button 1 12 0 Btn.sess_join,
         Ev.button 1 13 0 Btn.sess_join, Ev.closeJoin 1 [10, 11, 12, 13],
         Ev.button 1 12 0 Btn.sess_leave]).sessions 1).elim ∅
        Session.priests = {10, 11, 13} ∧
      (regGet (runTrace initWorld
        [Ev.start 7 1, Ev.button 1 10 0 Btn.sess_join,
         Ev.button 1 11 0 Btn.sess_join, Ev.button 1 12 0 Btn.sess_join,
         Ev.button 1 13 0 Btn.sess_join, Ev.closeJoin 1 [10, 11, 12, 13],
         Ev.button 1 12 0 Btn.sess_leave]).sessions 1).elim ∅
        Session.waiting = {12, 13}) := by
  have hphj : ¬ (sessMut uid Btn.sess_join s).phase = Phase.join := by
    show ¬ s.phase = Phase.join
    rw [hrun]
    exact fun hc => Phase.noConfusion hc
  have hphl : ¬ (sessMut uid Btn.sess_leave s).phase = Phase.join := by
    show ¬ s.phase = Phase.join
    rw [hrun]
    exact fun hc => Phase.noConfusion hc
  have hj := callback_running w msg uid pick Btn.sess_join s hreg hphj
  have hl := callback_running w msg uid pick Btn.sess_leave s hreg hphl
  refine ⟨?_, ?_, ?_, ?_, ⟨by decide, by decide, by decide⟩,
    ⟨by decide, by decide, by decide⟩⟩
  · intro h3
    rw [hj, if_neg (by
      show ¬ ((insert uid s.priests).card < 3)
      omega)]
    rfl
  · intro h3
    rw [hj, if_pos (by
      show (insert uid s.priests).card < 3
      omega)]
    exact ⟨regGet_regRemove_self _ _, rfl⟩
  · intro h3
    rw [hl, if_neg (by
      show ¬ ((s.priests.erase uid).card < 3)
      omega)]
    rfl
  · intro h3
    rw [hl, if_pos (by
      show (s.priests.erase uid).card < 3
      omega)]
    exact ⟨regGet_regRemove_self _ _, rfl⟩

theorem C9_sess_buttons_running_witness :
    ((step (runTrace initWorld
        [Ev.start 7 1, Ev.button 1 10 0 Btn.sess_join,
         Ev.button 1 11 0 Btn.sess_join, Ev.button 1 12 0 Btn.sess_join,
         Ev.closeJoin 1 [10, 11, 12]])
      (Ev.button 1 13 0 Btn.sess_join)).1.sessions =
        regSet (runTrace initWorld
          [Ev.start 7 1, Ev.button 1 10 0 Btn.sess_join,
           Ev.button 1 11 0 Btn.sess_join, Ev.button 1 12 0 Btn.sess_join,
           Ev.closeJoin 1 [10, 11, 12]]).sessions 1
          (Session.mk 7 1 (insert 13 {10, 11, 12}) {10, 11} {12}
            Phase.running)) ∧
    ((step (runTrace initWorld
        [Ev.start 7 1, Ev.button 1 10 0 Btn.sess_join,
         Ev.button 1 11 0 Btn.sess_join, Ev.button 1 12 0 Btn.sess_join,
         Ev.closeJoin 1 [10, 11, 12]])
      (Ev.button 1 13 0 Btn.sess_leave)).1.sessions =
        regSet (runTrace initWorld
          [Ev.start 7 1, Ev.button 1 10 0 Btn.sess_join,
           Ev.button 1 11 0 Btn.sess_join, Ev.button 1 12 0 Btn.sess_join,
           Ev.closeJoin 1 [10, 11, 12]]).sessions 1
          (Session.mk 7 1 (Finset.erase {10, 11, 12} 13) {10, 11} {12}
            Phase.running)) := by
  have hC := C9_sess_buttons_running (runTrace initWorld
      [Ev.start 7 1, Ev.button 1 10 0 Btn.sess_join,
       Ev.button 1 11 0 Btn.sess_join, Ev.button 1 12 0 Btn.sess_join,
       Ev.closeJoin 1 [10, 11, 12]]) 1 13 0
    (Session.mk 7 1 {10, 11, 12} {10, 11} {12} Phase.running)
    (by decide) rfl
  exact ⟨hC.1 (by decide), hC.2.2.1 (by decide)⟩

/-- A fully retired key (no session, no pending jobs) stays retired under
any trigger that is not a new session-start anchored at it. -/
theorem dead_step (w : World) (m : Nat) (e : Ev) (hD : Dead w m)
    (hne : ¬ isStartAt m e) : Dead (step w e).1 m := by
  obtain ⟨hs, hj, ht⟩ := hD
  cases e with
  | start chat msg =>
    have hmsg : ¬ msg = m := hne
    show Dead (sessione_start w chat msg).1 m
    unfold sessione_start
    by_cases he : ¬ w.sessions.isEmpty
    · rw [if_pos he]
      exact ⟨hs, hj, ht⟩
    · rw [if_neg he]
      refine ⟨?_, ?_, ht⟩
      · show regGet (regSet w.sessions msg _) m = none
        rw [regGet_regSet_ne w.sessions msg m _
          (fun hc => hmsg hc.symm)]
        exact hs
      · show m ∉ insert msg w.join_timers
        rw [Finset.mem_insert]
        exact fun hc => hc.elim (fun h1 => hmsg h1.symm) hj
  | button msg uid pick b =>
    show Dead (sessione_join_leave_callback w msg uid pick b).1 m
    unfold sessione_join_leave_callback
    cases hreg : regGet w.sessions msg with
    | none => exact ⟨hs, hj, ht⟩
    | some s =>
      have hmsg : m ≠ msg := by
        intro hc
        rw [hc, hreg] at hs
        cases hs
      dsimp only
      by_cases hph : (sessMut uid b s).phase = Phase.join
      · rw [if_pos hph]
        refine ⟨?_, hj, ht⟩
        show regGet (regSet w.sessions msg _) m = none
        rw [regGet_regSet_ne w.sessions msg m _ hmsg]
        exact hs
      · rw [if_neg hph]
        by_cases hq : (turnMut uid pick b (sessMut uid b s)).priests.card < 3
        · rw [if_pos hq]
          refine ⟨?_, hj, ht⟩
          show regGet (regRemove w.sessions msg) m = none
          rw [regGet_regRemove_ne w.sessions msg m hmsg]
          exact hs
        · rw [if_neg hq]
          refine ⟨?_, hj, ht⟩
          show regGet (regSet w.sessions msg _) m = none
          rw [regGet_regSet_ne w.sessions msg m _ hmsg]
          exact hs
  | closeJoin msg order =>
    unfold step
    dsimp only
    by_cases hjt : msg ∈ w.join_timers
    · have hmsg : m ≠ msg := by
        intro hc
        rw [hc] at hj
        exact hj hjt
      rw [if_pos hjt]
      unfold sessione_close_join_phase
      dsimp only
      cases hreg : regGet w.sessions msg with
      | none =>
        exact ⟨hs, fun hc => hj (Finset.mem_of_mem_erase hc), ht⟩
      | some s =>
        dsimp only
        by_cases hq : s.priests.card < 3
        · rw [if_pos hq]
          refine ⟨?_, fun hc => hj (Finset.mem_of_mem_erase hc), ht⟩
          show regGet (regRemove w.sessions msg) m = none
          rw [regGet_regRemove_ne w.sessions msg m hmsg]
          exact hs
        · rw [if_neg hq]
          refine ⟨?_, fun hc => hj (Finset.mem_of_mem_erase hc), ?_⟩
          · show regGet (regSet w.sessions msg _) m = none
            rw [regGet_regSet_ne w.sessions msg m _ hmsg]
            exact hs
          · show m ∉ insert msg w.turn_timers
            rw [Finset.mem_insert]
            exact fun hc => hc.elim (fun h1 => hmsg h1) ht
    · rw [if_neg hjt]
      exact ⟨hs, hj, ht⟩
  | nextTurn msg order =>
    unfold step
    dsimp only
    by_cases htt : msg ∈ w.turn_timers
    · have hmsg : m ≠ msg := by
        intro hc
        rw [hc] at ht
        exact ht htt
      rw [if_pos htt]
      unfold sessione_next_turn
      cases hreg : regGet w.sessions msg with
      | none =>
        exact ⟨hs, hj, fun hc => ht (Finset.mem_of_mem_erase hc)⟩
      | some s =>
        dsimp only
        by_cases hq : s.priests.card < 3
        · rw [if_pos hq]
          refine ⟨?_, hj, fun hc => ht (Finset.mem_of_mem_erase hc)⟩
          show regGet (regRemove w.sessions msg) m = none
          rw [regGet_regRemove_ne w.sessions msg m hmsg]
          exact hs
        · rw [if_neg hq]
          refine ⟨?_, hj, ht⟩
          show regGet (regSet w.sessions msg _) m = none
          rw [regGet_regSet_ne w.sessions msg m _ hmsg]
          exact hs
    · rw [if_neg htt]
      exact ⟨hs, hj, ht⟩

theorem dead_runTrace (es : List Ev) (w : World) (m : Nat) (hD : Dead w m)
    (hne : ∀ e ∈ es, ¬ isStartAt m e) : Dead (runTrace w es) m := by
  induction es generalizing w with
  | nil => exact hD
  | cons e t ih =>
    exact ih (step w e).1 (dead_step w m e hD (hne e (by simp)))
      (fun e2 he2 => hne e2 (by simp [he2]))

/-- The enrollment timer firing without quorum: session removed, notice
emitted, enrollment job consumed, rotation jobs untouched. -/
theorem closeJoin_fires_low (w : World) (msg : Nat) (order : List Nat)
    (s : Session) (hreg : regGet w.sessions msg = some s)
    (htimer : msg ∈ w.join_timers) (hq : s.priests.card < 3) :
    step w (Ev.closeJoin msg order) =
      ({ w with sessions := regRemove w.sessions msg,
                join_timers := w.join_timers.erase msg },
       [Eff.editQuorumNotReached msg]) := by
  unfold step
  dsimp only
  rw [if_pos htimer]
  unfold sessione_close_join_phase
  dsimp only
  rw [hreg]
  dsimp only
  rw [if_pos hq]

/-- The enrollment timer firing with quorum: partition installed, phase
flipped to Running, recurring rotation job scheduled with first fire one
full period away. -/
theorem closeJoin_fires_quorum (w : World) (msg : Nat) (order : List Nat)
    (s : Session) (hreg : regGet w.sessions msg = some s)
    (htimer : msg ∈ w.join_timers) (hq : ¬ s.priests.card < 3) :
    step w (Ev.closeJoin msg order) =
      ({ w with sessions := regSet w.sessions msg (closeSelect order s),
                join_timers := w.join_timers.erase msg,
                turn_timers := insert msg w.turn_timers },
       [Eff.editRunRender msg,
        Eff.scheduleRepeating msg TURN_INTERVAL TURN_INTERVAL]) := by
  unfold step
  dsimp only
  rw [if_pos htimer]
  unfold sessione_close_join_phase
  dsimp only
  rw [hreg]
  dsimp only
  rw [if_neg hq]

/-- C2: when the enrollment timer fires for a Joining session whose key
has no stale rotation job: with `|enrolled| < 3` the quorum-not-reached
notice is the only effect, the session is removed, and no rotation job
for this key ever becomes pending along any continuation that does not
start a new session on the same anchor; with `|enrolled| ≥ 3` the stored
session is `closeSelect order s`, which has exactly 2 on-duty members
drawn from `enrolled`, `waiting = enrolled \\ onDuty`, phase Running, and
the recurring rotation job is scheduled with `first = interval =
TURN_INTERVAL` (not immediately); every 2-element subset of `enrolled` is
attainable as `onDuty` for a suitable shuffle outcome. -/
theorem C2_enrollment_close (w : World) (msg : Nat) (order : List Nat)
    (s : Session) (hreg : regGet w.sessions msg = some s)
    (htimer : msg ∈ w.join_timers) (hnott : msg ∉ w.turn_timers) :
    (s.priests.card < 3 →
      regGet (step w (Ev.closeJoin msg order)).1.sessions msg = none ∧
        (step w (Ev.closeJoin msg order)).2 =
          [Eff.editQuorumNotReached msg] ∧
        (∀ es, (∀ e ∈ es, ¬ isStartAt msg e) →
          msg ∉
            (runTrace (step w (Ev.closeJoin msg order)).1 es).turn_timers)) ∧
    (3 ≤ s.priests.card →
      regGet (step w (Ev.closeJoin msg order)).1.sessions msg =
          some (closeSelect order s) ∧
        (closeSelect order s).phase = Phase.running ∧
        (closeSelect order s).priests = s.priests ∧
        (closeSelect order s).in_turn ⊆ s.priests ∧
        (closeSelect order s).in_turn.card = 2 ∧
        (closeSelect order s).waiting =
          s.priests \ (closeSelect order s).in_turn ∧
        msg ∈ (step w (Ev.closeJoin msg order)).1.turn_timers ∧
        (step w (Ev.closeJoin msg order)).2 =
          [Eff.editRunRender msg,
           Eff.scheduleRepeating msg TURN_INTERVAL TURN_INTERVAL] ∧
        (∀ t2, t2 ⊆ s.priests → t2.card = 2 →
          (closeSelect
            (t2.sort (· ≤ ·) ++ (s.priests \ t2).sort (· ≤ ·))
            s).in_turn = t2)) := by
  constructor
  · intro hq
    rw [closeJoin_fires_low w msg order s hreg htimer hq]
    refine ⟨regGet_regRemove_self _ _, rfl, fun es hes => ?_⟩
    have hD : Dead
        ({ w with sessions := regRemove w.sessions msg,
                  join_timers := w.join_timers.erase msg }) msg :=
      ⟨regGet_regRemove_self _ _, Finset.not_mem_erase _ _, hnott⟩
    exact (dead_runTrace es _ msg hD hes).2.2
  · intro hq3
    have hq : ¬ s.priests.card < 3 := by omega
    rw [closeJoin_fires_quorum w msg order s hreg htimer hq]
    obtain ⟨hu, hd, hc, _⟩ := closeSelect_runinv order s hq3
    have hu2 : s.priests =
        (closeSelect order s).in_turn ∪ (closeSelect order s).waiting := hu
    refine ⟨regGet_regSet_self _ _ _, rfl, rfl, ?_, hc, ?_,
      Finset.mem_insert_self _ _, rfl, ?_⟩
    · rw [hu2]
      exact Finset.subset_union_left
    · show (closeSelect order s).waiting =
        s.priests \ (closeSelect order s).in_turn
      rw [hu2, Finset.union_sdiff_cancel_left hd]
    · intro t2 hsub hcard
      have hdisj : (t2.sort (· ≤ ·)).Disjoint
          ((s.priests \ t2).sort (· ≤ ·)) := by
        intro a ha1 ha2
        rw [Finset.mem_sort] at ha1 ha2
        exact (Finset.mem_sdiff.mp ha2).2 ha1
      have hnd : (t2.sort (· ≤ ·) ++
          (s.priests \ t2).sort (· ≤ ·)).Nodup :=
        List.Nodup.append (t2.sort_nodup _) ((s.priests \ t2).sort_nodup _)
          hdisj
      have htf : (t2.sort (· ≤ ·) ++
          (s.priests \ t2).sort (· ≤ ·)).toFinset = s.priests := by
        rw [List.toFinset_append, Finset.sort_toFinset, Finset.sort_toFinset]
        exact Finset.union_sdiff_of_subset hsub
      have hperm : permOf
          (t2.sort (· ≤ ·) ++ (s.priests \ t2).sort (· ≤ ·)) s.priests =
          t2.sort (· ≤ ·) ++ (s.priests \ t2).sort (· ≤ ·) := by
        unfold permOf
        rw [if_pos ⟨hnd, htf⟩]
      show ((permOf (t2.sort (· ≤ ·) ++ (s.priests \ t2).sort (· ≤ ·))
          s.priests).take 2).toFinset = t2
      rw [hperm]
      have hlen : (t2.sort (· ≤ ·)).length = 2 := by
        rw [Finset.length_sort]
        exact hcard
      rw [show (2 : Nat) = (t2.sort (· ≤ ·)).length from hlen.symm,
        List.take_left]
      exact Finset.sort_toFinset _ _

theorem C2_enrollment_close_witness :
    (regGet (step (runTrace initWorld
        [Ev.start 7 1, Ev.button 1 10 0 Btn.sess_join,
         Ev.button 1 11 0 Btn.sess_join, Ev.button 1 12 0 Btn.sess_join])
      (Ev.closeJoin 1 [11, 12, 10])).1.sessions 1 =
        some (closeSelect [11, 12, 10]
          (Session.mk 7 1 {10, 11, 12} ∅ ∅ Phase.join)) ∧
      (closeSelect [11, 12, 10]
        (Session.mk 7 1 {10, 11, 12} ∅ ∅ Phase.join)).in_turn.card = 2 ∧
      (closeSelect [11, 12, 10]
          (Session.mk 7 1 {10, 11, 12} ∅ ∅ Phase.join)).waiting =
        (Session.mk 7 1 {10, 11, 12} ∅ ∅ Phase.join).priests \
          (closeSelect [11, 12, 10]
            (Session.mk 7 1 {10, 11, 12} ∅ ∅ Phase.join)).in_turn ∧
      (1 : Nat) ∈ (step (runTrace initWorld
          [Ev.start 7 1, Ev.button 1 10 0 Btn.sess_join,
           Ev.button 1 11 0 Btn.sess_join, Ev.button 1 12 0 Btn.sess_join])
        (Ev.closeJoin 1 [11, 12, 10])).1.turn_timers ∧
      (step (runTrace initWorld
          [Ev.start 7 1, Ev.button 1 10 0 Btn.sess_join,
           Ev.button 1 11 0 Btn.sess_join, Ev.button 1 12 0 Btn.sess_join])
        (Ev.closeJoin 1 [11, 12, 10])).2 =
        [Eff.editRunRender 1,
         Eff.scheduleRepeating 1 TURN_INTERVAL TURN_INTERVAL] ∧
      (closeSelect
          (({11, 12} : Finset Nat).sort (· ≤ ·) ++
            (({10, 11, 12} : Finset Nat) \ {11, 12}).sort (· ≤ ·))
          (Session.mk 7 1 {10, 11, 12} ∅ ∅ Phase.join)).in_turn =
        {11, 12}) ∧
    (regGet (step (runTrace initWorld
        [Ev.start 7 1, Ev.button 1 10 0 Btn.sess_join])
      (Ev.closeJoin 1 [10])).1.sessions 1 = none ∧
      (step (runTrace initWorld
          [Ev.start 7 1, Ev.button 1 10 0 Btn.sess_join])
        (Ev.closeJoin 1 [10])).2 = [Eff.editQuorumNotReached 1] ∧
      (1 : Nat) ∉ (runTrace
        (step (runTrace initWorld
            [Ev.start 7 1, Ev.button 1 10 0 Btn.sess_join])
          (Ev.closeJoin 1 [10])).1
        [Ev.nextTurn 1 [], Ev.button 1 10 0 Btn.sess_join,
         Ev.start 9 2]).turn_timers) := by
  have hA := C2_enrollment_close (runTrace initWorld
      [Ev.start 7 1, Ev.button 1 10 0 Btn.sess_join,
       Ev.button 1 11 0 Btn.sess_join, Ev.button 1 12 0 Btn.sess_join])
    1 [11, 12, 10] (Session.mk 7 1 {10, 11, 12} ∅ ∅ Phase.join)
    (by decide) (by decide) (by decide)
  have hB := C2_enrollment_close (runTrace initWorld
      [Ev.start 7 1, Ev.button 1 10 0 Btn.sess_join])
    1 [10] (Session.mk 7 1 {10} ∅ ∅ Phase.join)
    (by decide) (by decide) (by decide)
  have hA2 := hA.2 (by decide)
  have hB2 := hB.1 (by decide)
  refine ⟨⟨hA2.1, hA2.2.2.2.2.1, hA2.2.2.2.2.2.1, hA2.2.2.2.2.2.2.1,
    hA2.2.2.2.2.2.2.2.1, hA2.2.2.2.2.2.2.2.2 {11, 12} (by decide)
      (by decide)⟩,
    hB2.1, hB2.2.1, hB2.2.2
      [Ev.nextTurn 1 [], Ev.button 1 10 0 Btn.sess_join, Ev.start 9 2]
      (by decide)⟩

/-- A rotation-timer firing that finds its session already gone: no
session state is touched, the stale job removes itself. -/
theorem nextTurn_stale (w : World) (msg : Nat) (order : List Nat)
    (hmiss : regGet w.sessions msg = none) (htt : msg ∈ w.turn_timers) :
    step w (Ev.nextTurn msg order) =
      ({ w with turn_timers := w.turn_timers.erase msg },
       [Eff.cancelRepeating msg]) := by
  unfold step
  dsimp only
  rw [if_pos htt]
  unfold sessione_next_turn
  rw [hmiss]

/-- A rotation-timer firing that finds the session under quorum: removal,
notice, best-effort anchor deletion, and self-cancellation. -/
theorem nextTurn_teardown (w : World) (msg : Nat) (order : List Nat)
    (s : Session) (hreg : regGet w.sessions msg = some s)
    (htt : msg ∈ w.turn_timers) (hq : s.priests.card < 3) :
    step w (Ev.nextTurn msg order) =
      ({ w with sessions := regRemove w.sessions msg,
                turn_timers := w.turn_timers.erase msg },
       [Eff.editQuorumLost msg, Eff.deleteAnchor msg,
        Eff.cancelRepeating msg]) := by
  unfold step
  dsimp only
  rw [if_pos htt]
  unfold sessione_next_turn
  rw [hreg]
  dsimp only
  rw [if_pos hq]

/-- C5, counterexample.  A Running-phase leave that drops enrollment
below quorum tears the session down (registry empty, quorum-lost notice)
but neither attempts deletion of the anchor message (the only effect is
the notice edit) nor cancels the recurring rotation job: the job is still
pending afterwards and really fires once more. -/
theorem C5_counterexample :
    (runTrace initWorld
      [Ev.start 7 1, Ev.button 1 10 0 Btn.sess_join,
       Ev.button 1 11 0 Btn.sess_join, Ev.button 1 12 0 Btn.sess_join,
       Ev.closeJoin 1 [10, 11, 12],
       Ev.button 1 10 12 Btn.turn_leave]).sessions = [] ∧
    (step (runTrace initWorld
        [Ev.start 7 1, Ev.button 1 10 0 Btn.sess_join,
         Ev.button 1 11 0 Btn.sess_join, Ev.button 1 12 0 Btn.sess_join,
         Ev.closeJoin 1 [10, 11, 12]])
      (Ev.button 1 10 12 Btn.turn_leave)).2 = [Eff.editQuorumLost 1] ∧
    (1 : Nat) ∈ (runTrace initWorld
      [Ev.start 7 1, Ev.button 1 10 0 Btn.sess_join,
       Ev.button 1 11 0 Btn.sess_join, Ev.button 1 12 0 Btn.sess_join,
       Ev.closeJoin 1 [10, 11, 12],
       Ev.button 1 10 12 Btn.turn_leave]).turn_timers ∧
    (step (runTrace initWorld
        [Ev.start 7 1, Ev.button 1 10 0 Btn.sess_join,
         Ev.button 1 11 0 Btn.sess_join, Ev.button 1 12 0 Btn.sess_join,
         Ev.closeJoin 1 [10, 11, 12],
         Ev.button 1 10 12 Btn.turn_leave])
      (Ev.nextTurn 1 [])).2 = [Eff.cancelRepeating 1] := by
  exact ⟨by decide, by decide, by decide, by decide⟩

/-- C5 (amended): every teardown removes the session from the registry
and renders a final notice, but anchor deletion and immediate timer
cancellation happen only in the rotation-tick teardown.  (a) A
running-phase button teardown emits only the quorum-lost notice, leaves
the rotation job pending, and that job's next firing finds no session,
changes no session state, and removes itself.  (b) A rotation-tick
teardown emits the notice, attempts anchor deletion, and cancels the
job.  (c) An enrollment-window teardown emits the quorum-not-reached
notice and leaves the (empty) set of rotation jobs untouched — no
rotation job was ever started and no deletion is attempted. -/
theorem C5_teardown (w : World) (msg uid pick : Nat) (b : Btn)
    (order : List Nat) (s : Session) :
    (regGet w.sessions msg = some s →
      ¬ (sessMut uid b s).phase = Phase.join →
      (turnMut uid pick b (sessMut uid b s)).priests.card < 3 →
      regGet (step w (Ev.button msg uid pick b)).1.sessions msg = none ∧
        (step w (Ev.button msg uid pick b)).2 = [Eff.editQuorumLost msg] ∧
        (step w (Ev.button msg uid pick b)).1.turn_timers = w.turn_timers ∧
        (msg ∈ w.turn_timers →
          step (step w (Ev.button msg uid pick b)).1
              (Ev.nextTurn msg order) =
            ({ (step w (Ev.button msg uid pick b)).1 with
                turn_timers := w.turn_timers.erase msg },
             [Eff.cancelRepeating msg]))) ∧
    (regGet w.sessions msg = some s → msg ∈ w.turn_timers →
      s.priests.card < 3 →
      regGet (step w (Ev.nextTurn msg order)).1.sessions msg = none ∧
        (step w (Ev.nextTurn msg order)).2 =
          [Eff.editQuorumLost msg, Eff.deleteAnchor msg,
           Eff.cancelRepeating msg] ∧
        msg ∉ (step w (Ev.nextTurn msg order)).1.turn_timers) ∧
    (regGet w.sessions msg = some s → msg ∈ w.join_timers →
      s.priests.card < 3 →
      regGet (step w (Ev.closeJoin msg order)).1.sessions msg = none ∧
        (step w (Ev.closeJoin msg order)).2 =
          [Eff.editQuorumNotReached msg] ∧
        (step w (Ev.closeJoin msg order)).1.turn_timers = w.turn_timers) := by
  refine ⟨fun hreg hph hq => ?_, fun hreg htt hq => ?_, fun hreg hjt hq => ?_⟩
  · rw [callback_running w msg uid pick b s hreg hph, if_pos hq]
    refine ⟨regGet_regRemove_self _ _, rfl, rfl, fun htt => ?_⟩
    exact nextTurn_stale _ msg order (regGet_regRemove_self _ _) htt
  · rw [nextTurn_teardown w msg order s hreg htt hq]
    exact ⟨regGet_regRemove_self _ _, rfl, Finset.not_mem_erase _ _⟩
  · rw [closeJoin_fires_low w msg order s hreg hjt hq]
    exact ⟨regGet_regRemove_self _ _, rfl, rfl⟩

theorem C5_teardown_witness :
    (regGet (step (runTrace initWorld
        [Ev.start 7 1, Ev.button 1 10 0 Btn.sess_join,
         Ev.button 1 11 0 Btn.sess_join, Ev.button 1 12 0 Btn.sess_join,
         Ev.closeJoin 1 [10, 11, 12]])
      (Ev.button 1 10 12 Btn.turn_leave)).1.sessions 1 = none ∧
      (step (runTrace initWorld
          [Ev.start 7 1, Ev.button 1 10 0 Btn.sess_join,
           Ev.button 1 11 0 Btn.sess_join, Ev.button 1 12 0 Btn.sess_join,
           Ev.closeJoin 1 [10, 11, 12]])
        (Ev.button 1 10 12 Btn.turn_leave)).2 = [Eff.editQuorumLost 1] ∧
      (step (runTrace initWorld
          [Ev.start 7 1, Ev.button 1 10 0 Btn.sess_join,
           Ev.button 1 11 0 Btn.sess_join, Ev.button 1 12 0 Btn.sess_join,
           Ev.closeJoin 1 [10, 11, 12]])
        (Ev.button 1 10 12 Btn.turn_leave)).1.turn_timers =
        (runTrace initWorld
          [Ev.start 7 1, Ev.button 1 10 0 Btn.sess_join,
           Ev.button 1 11 0 Btn.sess_join, Ev.button 1 12 0 Btn.sess_join,
           Ev.closeJoin 1 [10, 11, 12]]).turn_timers) ∧
    (regGet (step (World.mk
        [(1, Session.mk 7 1 {10, 11} {10, 11} ∅ Phase.running)] ∅ {1})
      (Ev.nextTurn 1 [])).1.sessions 1 = none ∧
      (step (World.mk
          [(1, Session.mk 7 1 {10, 11} {10, 11} ∅ Phase.running)] ∅ {1})
        (Ev.nextTurn 1 [])).2 =
        [Eff.editQuorumLost 1, Eff.deleteAnchor 1,
         Eff.cancelRepeating 1] ∧
      (1 : Nat) ∉ (step (World.mk
          [(1, Session.mk 7 1 {10, 11} {10, 11} ∅ Phase.running)] ∅ {1})
        (Ev.nextTurn 1 [])).1.turn_timers) ∧
    (regGet (step (World.mk
        [(2, Session.mk 7 2 {10, 11} ∅ ∅ Phase.join)] {2} ∅)
      (Ev.closeJoin 2 [])).1.sessions 2 = none ∧
      (step (World.mk
          [(2, Session.mk 7 2 {10, 11} ∅ ∅ Phase.join)] {2} ∅)
        (Ev.closeJoin 2 [])).2 = [Eff.editQuorumNotReached 2] ∧
      (step (World.mk
          [(2, Session.mk 7 2 {10, 11} ∅ ∅ Phase.join)] {2} ∅)
        (Ev.closeJoin 2 [])).1.turn_timers =
        (World.mk
          [(2, Session.mk 7 2 {10, 11} ∅ ∅ Phase.join)] {2}
          ∅).turn_timers) := by
  have hA := (C5_teardown (runTrace initWorld
      [Ev.start 7 1, Ev.button 1 10 0 Btn.sess_join,
       Ev.button 1 11 0 Btn.sess_join, Ev.button 1 12 0 Btn.sess_join,
       Ev.closeJoin 1 [10, 11, 12]]) 1 10 12 Btn.turn_leave []
    (Session.mk 7 1 {10, 11, 12} {10, 11} {12} Phase.running)).1
    (by decide) (by decide) (by decide)
  have hB := (C5_teardown (World.mk
      [(1, Session.mk 7 1 {10, 11} {10, 11} ∅ Phase.running)] ∅ {1})
    1 0 0 Btn.turn_leave []
    (Session.mk 7 1 {10, 11} {10, 11} ∅ Phase.running)).2.1
    (by decide) (by decide) (by decide)
  have hC := (C5_teardown (World.mk
      [(2, Session.mk 7 2 {10, 11} ∅ ∅ Phase.join)] {2} ∅)
    2 0 0 Btn.turn_leave []
    (Session.mk 7 2 {10, 11} ∅ ∅ Phase.join)).2.2
    (by decide) (by decide) (by decide)
  exact ⟨⟨hA.1, hA.2.1, hA.2.2.1⟩, hB, hC⟩

end Roster
